import Mathlib

/-!
Shallow embedding of the vehicle-inventory-system scrape/ingest pipeline
(backend/app/services and backend/app/parsers) together with theorems that
settle the specification claims about it.

Conventions used throughout:
* Python `Decimal` values are embedded as `Rat` (exact arithmetic; the two
  agree on every operation performed by this code base at the granularity the
  spec talks about).
* `datetime` values are embedded as integers (UTC instants, totally ordered;
  only `min`/`max`/equality are used by the code on them).
* Python `None` becomes `Option.none`; Python truthiness of strings
  (`x or y`) is embedded explicitly where the source relies on it.
* Mutable per-call state (database session contents) is passed explicitly as
  values of a `State`-like structure.
-/

namespace VehInv

/-- ASCII lowercase of a string (embedding of Python `str.lower` as used on
the ASCII data handled by this code base). -/
def pyLower (s : String) : String :=
  String.mk (s.data.map Char.toLower)

/-- ASCII uppercase of a string (embedding of Python `str.upper`). -/
def pyUpper (s : String) : String :=
  String.mk (s.data.map Char.toUpper)

/-- Python string truthiness: `None` and the empty string are falsy. -/
def strTruthy : Option String → Bool
  | none => false
  | some s => s ≠ ""

/-- Embedding of the Python idiom `a or b` on optional strings
(`row.get("x") or listing.x`). -/
def strOr (a b : Option String) : Option String :=
  if strTruthy a then a else b

/-! ## Claim C1 — Fetch Client call contract

`FirecrawlClient.fetch` (src/backend/app/services/firecrawl_client.py,
line 121) is declared as

    async def fetch(self, url, *, allow_extract_fallback: bool = False)

while the Orchestrator (src/backend/app/services/scrape_orchestrator.py,
line 219) invokes it as

    await self.firecrawl.fetch(url, allow_extract_fallback=allow_extract, proxy=proxy)

We embed the two parameter lists verbatim and the Python keyword-binding
rule: a call binds only if every keyword argument names a declared
parameter, otherwise it raises `TypeError`. -/

/-- Parameter names of `FirecrawlClient.fetch` as declared in the source. -/
def firecrawlFetchParamNames : List String :=
  ["self", "url", "allow_extract_fallback"]

/-- Keyword-argument names passed by `ScrapeOrchestrator._process_task` at
its `self.firecrawl.fetch(...)` call site. -/
def processTaskFetchKeywordNames : List String :=
  ["allow_extract_fallback", "proxy"]

/-- Python keyword binding for a function with no `**kwargs`: the call is
accepted iff every keyword argument names a declared parameter. -/
def pyCallBindsKeywords (params kws : List String) : Bool :=
  kws.all (fun k => params.contains k)

/-! ## Claim C6 — Fetch Client retry/escalation (`FirecrawlClient._post`)

`_post` loops `while attempts < self.max_attempts`, obtaining for each
attempt either a transport error (`httpx.RequestError`), an HTTP response
with a retryable status (`{429, 500, 502, 503, 504}`), an HTTP error
status that is not retryable (raise_for_status → terminal `FirecrawlError`),
or a body (valid JSON → returned; invalid JSON → terminal error).
On exhaustion it raises `last_error` itself when that is a `FirecrawlError`
(which `FirecrawlRetryableError` is) and otherwise wraps the transport
error in a plain `FirecrawlError`. -/

/-- Outcome of one `transport.post` call, as distinguished by `_post`. -/
inductive TransportOutcome where
  /-- Models `httpx.RequestError` raised by the transport. -/
  | transportError (msg : String)
  /-- HTTP response with the given status code; `body = some j` models a
  response whose `.json()` succeeds with value `j`, `none` invalid JSON. -/
  | response (statusCode : Nat) (body : Option String)
deriving DecidableEq, Repr

/-- The two Firecrawl error kinds: `FirecrawlRetryableError` and its base
class `FirecrawlError` (terminal). -/
inductive FirecrawlErr where
  | retryable (msg : String)
  | terminal (msg : String)
deriving DecidableEq, Repr

/-- Models `RETRYABLE_STATUS` from firecrawl_client.py. -/
def RETRYABLE_STATUS : List Nat := [429, 500, 502, 503, 504]

/-- What `_post` stored in `last_error` after a failed attempt. -/
inductive LastError where
  | transport (msg : String)
  | retryableStatus (msg : String)
deriving DecidableEq, Repr

/-- The `raise` cascade after the while loop of `_post`:
`FirecrawlRetryableError` instances are `FirecrawlError`s and are re-raised
as-is; transport errors are wrapped in a terminal `FirecrawlError`. -/
def postEscalate : Option LastError → FirecrawlErr
  | some (.retryableStatus m) => .retryable m
  | some (.transport m) => .terminal m
  | none => .terminal "Firecrawl request failed"

/-- Embedding of the `_post` retry loop. `outcomes` lists what the
transport yields on successive attempts; `fuel` counts the remaining
iterations allowed by `attempts < max_attempts`. Returns the JSON body or
the raised error. -/
def postLoop : Nat → List TransportOutcome → Option LastError → Except FirecrawlErr String
  | 0, _, lastError => .error (postEscalate lastError)
  | _ + 1, [], lastError =>
    -- the transport always yields an outcome per attempt; an exhausted
    -- outcome list is modelled as immediate escalation
    .error (postEscalate lastError)
  | fuel + 1, o :: rest, _ =>
    match o with
    | .transportError msg => postLoop fuel rest (some (.transport msg))
    | .response code body =>
      if code ∈ RETRYABLE_STATUS then
        postLoop fuel rest
          (some (.retryableStatus s!"Firecrawl returned {code} for path"))
      else if 400 ≤ code then
        .error (.terminal s!"HTTP status error {code}")
      else
        match body with
        | some j => .ok j
        | none => .error (.terminal "Invalid JSON from Firecrawl")

/-- Models `FirecrawlClient._post`, embedded over the sequence of transport
outcomes it would observe. `maxAttempts` is `self.max_attempts`. -/
def firecrawlPost (maxAttempts : Nat) (outcomes : List TransportOutcome) :
    Except FirecrawlErr String :=
  postLoop maxAttempts outcomes none

/-- An outcome is one of the retried classes: transport error or retryable
HTTP status. -/
def retriedClass : TransportOutcome → Bool
  | .transportError _ => true
  | .response code _ => code ∈ RETRYABLE_STATUS

/-- The `last_error` recorded after a retried-class outcome. -/
def lastErrorOf : TransportOutcome → Option LastError
  | .transportError m => some (.transport m)
  | .response code _ =>
    if code ∈ RETRYABLE_STATUS then
      some (.retryableStatus s!"Firecrawl returned {code} for path")
    else none

/-! ## Claims C8 / C2 — URL Builder (`build_inventory_url`)

src/backend/app/parsers/url_builder.py.  The model registry is loaded from
`data/models.yaml`, which is not part of the source tree, so membership of a
model in `MODEL_REGISTRY` is embedded as a `registry : List String`
parameter; likewise the assembled `base_tokens` dict (built from the
registry entry, `scraping_config.tokens` and dealer fallback fields, lines
74–107) is taken as a `tokens : String → Option String` parameter, with
`none` standing for an absent key or a `None` value. `urllib.parse.urljoin`
is a Python standard-library function and is passed in as an oracle. -/

/-- Errors raised by `build_inventory_url`: `Unsupported model: …` and
`Missing placeholder token(s) …` (both `ValueError` in the source). -/
inductive BuildError where
  | unsupportedModel (model : String)
  | missingPlaceholder (keys : List String)
deriving DecidableEq, Repr

/-- Whether the dict lookup `base_tokens.get(key)` produces a value the
`replace` callback treats as present (`value is None or value == ""` makes
the token count as missing, line 114). -/
def tokenPresent (tokens : String → Option String) (key : String) : Bool :=
  match tokens key with
  | none => false
  | some v => v ≠ ""

/-- Models `PLACEHOLDER_PATTERN.sub(replace, tpl)` for the pattern
`\{([^}]+)\}` together with the `missing` set accumulated by `replace`:
scan left to right; at `{`, the candidate key is everything up to the first
following `}` (at least one character); a matched placeholder is replaced by
the token value, or by the empty string while recording the key as missing.
Unmatched characters pass through. -/
def subPlaceholdersFuel (tokens : String → Option String) :
    Nat → List Char → List Char × List String
  | 0, _ => ([], [])
  | _, [] => ([], [])
  | fuel + 1, '{' :: rest =>
    let key := rest.takeWhile (· ≠ '}')
    match rest.dropWhile (· ≠ '}') with
    | '}' :: rest3 =>
      if key.isEmpty then
        -- `{}`: `[^}]+` needs at least one character, no match here
        let (out, miss) := subPlaceholdersFuel tokens fuel rest
        ('{' :: out, miss)
      else
        let keyStr := String.mk key
        let (out, miss) := subPlaceholdersFuel tokens fuel rest3
        if tokenPresent tokens keyStr then
          (((tokens keyStr).getD "").data ++ out, miss)
        else
          (out, keyStr :: miss)
    | _ =>
      -- no closing `}` ahead: no match starting at this `{`
      let (out, miss) := subPlaceholdersFuel tokens fuel rest
      ('{' :: out, miss)
  | fuel + 1, c :: rest =>
    let (out, miss) := subPlaceholdersFuel tokens fuel rest
    (c :: out, miss)

/-- Models `PLACEHOLDER_PATTERN.sub` — the fuel (one unit per scan step, each of
which consumes at least one character) starts at the input length, which
always suffices. -/
def subPlaceholders (tokens : String → Option String) (l : List Char) :
    List Char × List String :=
  subPlaceholdersFuel tokens l.length l

/-- The replacement text of the two `cy=` cleanup regexes:
`lambda m: "?" if m.group(1) == "?" else ""`. -/
def cyRepl (c : Char) : List Char :=
  if c = '?' then ['?'] else []

/-- Models `re.sub(r"([?&])cy=(?:(?=&)|$)", …, url)`: a `?`/`&` followed by `cy=`
that is immediately followed by `&` (lookahead, not consumed) or the end of
the string. -/
def cySub1 : List Char → List Char
  | c :: 'c' :: 'y' :: '=' :: rest =>
    if (c = '?' ∨ c = '&') ∧ (rest = [] ∨ rest.head? = some '&') then
      cyRepl c ++ cySub1 rest
    else
      c :: cySub1 ('c' :: 'y' :: '=' :: rest)
  | c :: rest => c :: cySub1 rest
  | [] => []

/-- Models `re.sub(r"([?&])cy=(?:&|$)", …, url)`: same, but the trailing `&` is
part of the match and consumed. -/
def cySub2 : List Char → List Char
  | c :: 'c' :: 'y' :: '=' :: '&' :: rest =>
    if c = '?' ∨ c = '&' then
      cyRepl c ++ cySub2 rest
    else
      c :: cySub2 ('c' :: 'y' :: '=' :: '&' :: rest)
  | c :: 'c' :: 'y' :: '=' :: [] =>
    if c = '?' ∨ c = '&' then
      cyRepl c
    else
      c :: cySub2 ['c', 'y', '=']
  | c :: rest => c :: cySub2 rest
  | [] => []

/-- Models `url.replace("?&", "?")`. -/
def replaceQAmp : List Char → List Char
  | '?' :: '&' :: rest => '?' :: replaceQAmp rest
  | c :: rest => c :: replaceQAmp rest
  | [] => []

/-- Models `re.sub(r"&&+", "&", url)`: every maximal run of two or more `&`
collapses to a single `&` (fuel-indexed scan; the fuel never runs out
since every step consumes at least one character). -/
def collapseAmpsFuel : Nat → List Char → List Char
  | 0, _ => []
  | _, [] => []
  | fuel + 1, '&' :: '&' :: rest =>
    '&' :: collapseAmpsFuel fuel (rest.dropWhile (· = '&'))
  | fuel + 1, c :: rest => c :: collapseAmpsFuel fuel rest

/-- Models `re.sub(r"&&+", "&", url)`. -/
def collapseAmps (l : List Char) : List Char :=
  collapseAmpsFuel l.length l

/-- Models `url.rstrip("?&")` guarded by
`url.endswith("&") or url.endswith("?")`. -/
def rstripQAmp (l : List Char) : List Char :=
  match l.getLast? with
  | some '&' => (l.reverse.dropWhile (fun c => c = '?' ∨ c = '&')).reverse
  | some '?' => (l.reverse.dropWhile (fun c => c = '?' ∨ c = '&')).reverse
  | _ => l

/-- The post-substitution cleanup performed inside `if missing:` once the
missing set was found to hold nothing but `city_code` (lines 129–135). -/
def cleanupMissing (cityCodeMissing : Bool) (l : List Char) : List Char :=
  let l := if cityCodeMissing then cySub2 (cySub1 l) else l
  let l := replaceQAmp l
  let l := collapseAmps l
  rstripQAmp l

/-- Models `build_inventory_url(dealer_row, model)`
(src/backend/app/parsers/url_builder.py, lines 55–139).
`registry` is the set of model names in `MODEL_REGISTRY`, `template` is
`dealer_row.get("inventory_url_template")`, `scope` is
`scraping_config.get("template_scope", "relative")`, `tokens` the assembled
`base_tokens`, `homepage` the dealer homepage used by the final
`urljoin`. -/
def build_inventory_url (urljoin : String → String → String)
    (registry : List String) (model : String) (template : Option String)
    (scope : String) (tokens : String → Option String) (homepage : String) :
    Except BuildError String :=
  if model ∉ registry then
    .error (.unsupportedModel model)
  else
    let tpl := (strOr template (some "")).getD ""
    let (out, missing) := subPlaceholders tokens tpl.data
    let unexpected := missing.filter (· ≠ "city_code")
    if unexpected ≠ [] then .error (.missingPlaceholder unexpected)
    else
      let urlChars :=
        if missing.isEmpty then out
        else cleanupMissing (missing.contains "city_code") out
      let url := String.mk urlChars
      if scope = "relative" ∧ ¬ url.startsWith "http" then
        .ok (urljoin homepage url)
      else
        .ok url

/-! ## Claim C2 — job counters and closure status
(`ScrapeOrchestrator.run_job` / `_create_job_and_tasks`,
src/backend/app/services/scrape_orchestrator.py, lines 98–181)

`_create_job_and_tasks` persists, per dealer, either a task with
status `failed` (URL build raised; the dealer gets **no** entry in
`tasks_meta`) or a `pending` task plus a `tasks_meta` entry.  `run_job`
gathers `_process_task` over `tasks_meta` only and computes
`success_count = #{r | r.status == "success"}`,
`fail_count = len(results) - success_count`.
Each processed task's final persisted status is `success` or `failed`
(every return path of `_process_task` sets exactly one of the two).
The fetching/parsing behaviour of `_process_task` is abstracted into the
oracle `process : Int × String → Bool` (task success, given dealer id and
built URL); the counting logic under scrutiny is independent of it. -/

/-- Dealer fields consumed by `build_inventory_url` plus the surrogate id. -/
structure DealerBuild where
  id : Int
  template : Option String
  scope : String
  tokens : String → Option String
  homepage : String

/-- Models `str(exc)` for the URL-build exceptions stored on failed tasks. -/
def buildErrMsg : BuildError → String
  | .unsupportedModel m => s!"Unsupported model: {m}"
  | .missingPlaceholder _ => "Missing placeholder token(s)"

/-- A persisted `scrape_tasks` row (the fields the claims mention). -/
structure TaskRec where
  dealer_id : Int
  url : String
  status : String
  error : Option String

/-- The persisted `scrape_jobs` closure fields. -/
structure JobSummary where
  status : String
  target_count : Nat
  success_count : Nat
  fail_count : Nat

/-- Models `run_job` together with the final persisted task rows: per dealer,
build failure → task persisted `failed` and excluded from processing;
build success → task processed with final status from `process`.
Counters and job status exactly as computed in `run_job` (lines 110–112). -/
def runJobModel (urljoin : String → String → String) (registry : List String)
    (model : String) (process : Int × String → Bool)
    (dealers : List DealerBuild) : JobSummary × List TaskRec :=
  let build := fun (d : DealerBuild) =>
    build_inventory_url urljoin registry model d.template d.scope d.tokens d.homepage
  let tasksMeta := dealers.filterMap fun d =>
    match build d with
    | .ok url => some (d.id, url)
    | .error _ => none
  let results := tasksMeta.map process
  let successCount := (results.filter id).length
  let failCount := results.length - successCount
  let status :=
    if failCount = 0 then "success"
    else if successCount > 0 then "partial" else "failed"
  let tasks := dealers.map fun d =>
    match build d with
    | .error e =>
      { dealer_id := d.id, url := "", status := "failed",
        error := some (buildErrMsg e) }
    | .ok url =>
      { dealer_id := d.id, url := url,
        status := if process (d.id, url) then "success" else "failed",
        error := none }
  ({ status := status, target_count := dealers.length,
     success_count := successCount, fail_count := failCount }, tasks)

/-- Number of dealers whose URL build raised (tasks failed at URL build). -/
def buildFailCount (urljoin : String → String → String) (registry : List String)
    (model : String) (dealers : List DealerBuild) : Nat :=
  (dealers.filter fun d =>
    match build_inventory_url urljoin registry model d.template d.scope
        d.tokens d.homepage with
    | .error _ => true
    | .ok _ => false).length

/-! ## Claim C4 — Absence Reconciler
(`ScrapeOrchestrator._mark_absent_listings`,
src/backend/app/services/scrape_orchestrator.py, lines 622–665)

The SQL statement inner-joins listings to vehicles on VIN (VIN is the
vehicles primary key, so at most one match) and filters by dealer, vehicle
model, and `source_rank IS NULL OR source_rank <= SOURCE_RANK_INVENTORY`.
Each selected listing absent from `observed_vins` is transitioned in place;
out-of-scope listings are untouched. The returned
`marked_missing`/`marked_sold` counters are not modelled (no claim
mentions them). -/

/-- Models `SOURCE_RANK_INVENTORY` (scrape_orchestrator.py, line 58). -/
def SOURCE_RANK_INVENTORY : Int := 50

/-- The listing columns read or written by `_mark_absent_listings`. -/
structure AbsListing where
  dealer_id : Int
  vin : String
  status : String
  source_rank : Option Int
  last_seen_at : Option Int
deriving DecidableEq, Repr

/-- The vehicle columns used by the join. -/
structure AbsVehicle where
  vin : String
  model : String
deriving DecidableEq, Repr

/-- The WHERE clause of the statement in `_mark_absent_listings`: same
dealer, joined vehicle has the scraped model, and
`source_rank IS NULL OR source_rank <= 50`. -/
def inAbsenceScope (dealerId : Int) (model : String)
    (vehicles : List AbsVehicle) (l : AbsListing) : Bool :=
  (l.dealer_id = dealerId : Bool) &&
  (match vehicles.find? (fun v => v.vin = l.vin) with
   | some v => (v.model = model : Bool)
   | none => false) &&
  (match l.source_rank with
   | none => true
   | some r => (r ≤ SOURCE_RANK_INVENTORY : Bool))

/-- The per-listing transition applied to a selected listing (lines
650–662): observed VIN → untouched; `sold` → untouched; `missing` → `sold`
(stamping `last_seen_at` if it was null); anything else → `missing`. -/
def stepAbsent (observedVins : List String) (observedAt : Int)
    (l : AbsListing) : AbsListing :=
  if pyUpper l.vin ∈ observedVins then l
  else
    let currentStatus := pyLower l.status
    if currentStatus = "sold" then l
    else if currentStatus = "missing" then
      { l with status := "sold",
               last_seen_at := some (l.last_seen_at.getD observedAt) }
    else
      { l with status := "missing" }

/-- Models `_mark_absent_listings`: the listings table after one invocation. -/
def markAbsentListings (dealerId : Int) (model : String)
    (observedVins : List String) (observedAt : Int)
    (vehicles : List AbsVehicle) (listings : List AbsListing) :
    List AbsListing :=
  listings.map fun l =>
    if inAbsenceScope dealerId model vehicles l then
      stepAbsent observedVins observedAt l
    else l

/-! ## Claims C3 / C5 / C7 — Ingest Reconciler
(`upsert_observations_and_listings`, src/backend/app/services/ingest.py)

Embedding choices: `Decimal` → `Rat` (all operations performed here —
subtraction, division by a non-zero value, comparison — are exact);
`datetime` → `Int` (only order, `min`/`max` and equality are used);
the session's table contents → explicit lists threaded through a fold.
Input rows are taken pre-coerced (`_as_decimal` applied to the price
fields, `int(...)` to `source_rank`), matching the valid inputs the
callers produce. `row["payload"]` is opaque; the
`assumptions.ad_price_equals_msrp` annotation is modelled as a boolean
alongside it. -/

/-- The `vehicle` sub-dict of a row (`row.get("vehicle") or {}`),
with `_as_decimal` already applied to `msrp`/`invoice_price`. -/
structure VehicleData where
  make : Option String := none
  model : Option String := none
  year : Option Int := none
  trim : Option String := none
  drivetrain : Option String := none
  transmission : Option String := none
  exterior_color : Option String := none
  interior_color : Option String := none
  msrp : Option Rat := none
  invoice_price : Option Rat := none
  features : Option String := none
deriving Repr

/-- A `vehicles` table row. -/
structure Vehicle where
  vin : String
  make : String
  model : String
  year : Option Int := none
  trim : Option String := none
  drivetrain : Option String := none
  transmission : Option String := none
  exterior_color : Option String := none
  interior_color : Option String := none
  msrp : Option Rat := none
  invoice_price : Option Rat := none
  features : Option String := none
  updated_at : Int := 0
deriving Repr

/-- A `listings` table row (the columns `upsert_observations_and_listings`
touches). -/
structure Listing where
  dealer_id : Int
  vin : String
  vdp_url : Option String := none
  stock_number : Option String := none
  status : String
  advertised_price : Option Rat := none
  price_delta_msrp : Option Rat := none
  first_seen_at : Option Int := none
  last_seen_at : Option Int := none
  source_rank : Option Int := none
deriving DecidableEq, Repr

/-- An `observations` table row. -/
structure Observation where
  job_id : String
  observed_at : Int
  dealer_id : Int
  vin : String
  vdp_url : Option String
  advertised_price : Option Rat
  msrp : Option Rat
  payloadOpaque : String
  payloadAssumesMsrp : Bool
  raw_blob_key : Option String
  source : String
deriving DecidableEq, Repr

/-- A `price_events` table row. -/
structure PriceEvent where
  dealer_id : Int
  vin : String
  observed_at : Int
  old_price : Rat
  new_price : Rat
  delta : Rat
  pct : Option Rat
deriving DecidableEq, Repr

/-- An input row of `upsert_observations_and_listings`. -/
structure Row where
  dealer_id : Int
  vin : String
  observed_at : Option Int := none
  vehicle : Option VehicleData := none
  advertised_price : Option Rat := none
  msrp : Option Rat := none
  payloadOpaque : String := ""
  job_id : Option String := none
  vdp_url : Option String := none
  stock_number : Option String := none
  status : Option String := none
  source_rank : Option Int := none
  first_seen_at : Option Int := none
  last_seen_at : Option Int := none
  raw_blob_key : Option String := none
  source : Option String := none

/-- The database contents the reconciler reads and writes. -/
structure IngestState where
  vehicles : List Vehicle := []
  listings : List Listing := []
  observations : List Observation := []
  price_events : List PriceEvent := []

/-- Models `ZERO_JOB_ID` (ingest.py, line 14). -/
def ZERO_JOB_ID : String := "00000000-0000-0000-0000-000000000000"

/-- Hexadecimal digit test (`0-9a-fA-F`). -/
def isHexDigitChar (c : Char) : Bool :=
  c.isDigit || ('a' ≤ c ∧ c ≤ 'f' : Bool) || ('A' ≤ c ∧ c ≤ 'F' : Bool)

/-- Whether a string is a canonical `8-4-4-4-12` hex UUID.  Python's
`uuid.UUID` accepts a few more spellings (braces, missing dashes, urn
form); no claim depends on those, so only the canonical form is
modelled. -/
def isCanonicalUuid (s : String) : Bool :=
  match (s.splitOn "-").map (fun part => (part.length, part.all isHexDigitChar)) with
  | [(8, true), (4, true), (4, true), (4, true), (12, true)] => true
  | _ => false

/-- Models `UUID(str(job_id)) if job_id else ZERO_JOB_ID`, falling back to the
sentinel on parse failure (ingest.py, lines 100–103); `uuid.UUID`
normalises hex digits to lowercase. -/
def uuidOrZero (jobId : Option String) : String :=
  if strTruthy jobId then
    let s := jobId.getD ""
    if isCanonicalUuid s then pyLower s else ZERO_JOB_ID
  else ZERO_JOB_ID

/-- Overwrite a mutable vehicle attribute only when the fresh value is
non-null (`if value is not None: setattr(...)`). -/
def updOpt {α : Type} (fresh old : Option α) : Option α :=
  match fresh with
  | some x => some x
  | none => old

/-- Models `_merge_vehicle` (ingest.py, lines 36–63): create-on-miss with
`make`/`model` defaulted to `""`, then overwrite each mutable field with
any non-null fresh value, and stamp `updated_at = now`. -/
def mergeVehicle (now : Int) (vin : String) (d : VehicleData)
    (existing : Option Vehicle) : Vehicle :=
  let v := existing.getD
    { vin := vin, make := d.make.getD "", model := d.model.getD "" }
  { v with
    make := (updOpt d.make (some v.make)).getD v.make,
    model := (updOpt d.model (some v.model)).getD v.model,
    year := updOpt d.year v.year,
    trim := updOpt d.trim v.trim,
    drivetrain := updOpt d.drivetrain v.drivetrain,
    transmission := updOpt d.transmission v.transmission,
    exterior_color := updOpt d.exterior_color v.exterior_color,
    interior_color := updOpt d.interior_color v.interior_color,
    msrp := updOpt d.msrp v.msrp,
    invoice_price := updOpt d.invoice_price v.invoice_price,
    features := updOpt d.features v.features,
    updated_at := now }

/-- Effective advertised price after the MSRP fallback (ingest.py,
lines 95–97). -/
def effectiveAdvPrice (r : Row) : Option Rat :=
  match r.advertised_price, r.msrp with
  | none, some m => some m
  | a, _ => a

/-- Models `status = row.get("status") or "available"`. -/
def rowStatus (r : Row) : String :=
  if strTruthy r.status then r.status.getD "" else "available"

/-- Models `observed_at = _ensure_utc(row.get("observed_at"))`: the row value,
or the current instant when absent. -/
def rowObservedAt (now : Int) (r : Row) : Int :=
  r.observed_at.getD now

/-- Models `first_seen_at = _ensure_utc(first_seen_at) if first_seen_at else
observed_at`. -/
def rowFirstSeen (now : Int) (r : Row) : Int :=
  r.first_seen_at.getD (rowObservedAt now r)

/-- Same for `last_seen_at`. -/
def rowLastSeen (now : Int) (r : Row) : Int :=
  r.last_seen_at.getD (rowObservedAt now r)

/-- Models `source_rank_value or 100` — Python `or` on integers treats `0` the
same as `None` (ingest.py, line 151). -/
def sourceRankOr100 (sr : Option Int) : Int :=
  match sr with
  | none => 100
  | some v => if v = 0 then 100 else v

/-- The listing lookup key `(dealer_id, vin)` used by the SELECT on
lines 120–125. -/
def findListing (listings : List Listing) (dealerId : Int) (vin : String) :
    Option Listing :=
  listings.find? fun l => l.dealer_id = dealerId ∧ l.vin = vin

/-- The listing identity `(dealer_id, vin)` — the composite primary key
of the listings table (models.py, lines 50–51). -/
def listingKey (l : Listing) : Int × String :=
  (l.dealer_id, l.vin)

/-- The listing identity targeted by a row (VIN uppercased, ingest.py
line 86). -/
def rowKey (r : Row) : Int × String :=
  (r.dealer_id, pyUpper r.vin)

/-- The listing created in the `if listing is None` branch (ingest.py,
lines 137–154); `vehicleMsrp` is the merged vehicle's `msrp` used by the
delta fallback. -/
def newListingFor (row : Row) (now : Int) (vehicleMsrp : Option Rat) :
    Listing :=
  let advertised_price := effectiveAdvPrice row
  let msrp_value :=
    match row.msrp with | some m => some m | none => vehicleMsrp
  let price_delta :=
    match advertised_price, msrp_value with
    | some a, some m => some (a - m)
    | _, _ => none
  { dealer_id := row.dealer_id, vin := pyUpper row.vin,
    vdp_url := row.vdp_url, stock_number := row.stock_number,
    status := rowStatus row, advertised_price := advertised_price,
    price_delta_msrp := price_delta,
    first_seen_at := some (rowFirstSeen now row),
    last_seen_at := some (rowLastSeen now row),
    source_rank := some (sourceRankOr100 row.source_rank) }

/-- The in-place mutation of an existing listing (ingest.py,
lines 155–174). -/
def updatedListingFor (row : Row) (now : Int) (vehicleMsrp : Option Rat)
    (l : Listing) : Listing :=
  let status := rowStatus row
  let advertised :=
    match effectiveAdvPrice row with
    | some a => some a
    | none => l.advertised_price
  let msrp_value :=
    match row.msrp with | some m => some m | none => vehicleMsrp
  let price_delta :=
    match advertised, msrp_value with
    | some a, some m => some (a - m)
    | _, _ => l.price_delta_msrp
  { l with
    vdp_url := strOr row.vdp_url l.vdp_url,
    stock_number := strOr row.stock_number l.stock_number,
    status := if status ≠ "" then status else l.status,
    advertised_price := advertised,
    price_delta_msrp := price_delta,
    first_seen_at :=
      match l.first_seen_at with
      | some f => some (min f (rowFirstSeen now row))
      | none => some (rowFirstSeen now row),
    last_seen_at :=
      match l.last_seen_at with
      | some g => some (max g (rowLastSeen now row))
      | none => some (rowLastSeen now row),
    source_rank :=
      match row.source_rank with
      | none => l.source_rank
      | some nr =>
        match l.source_rank with
        | none => some nr
        | some o => if nr < o then some nr else l.source_rank }

/-- The price events appended for one row against the pre-update listing
(ingest.py, lines 176–193): one event when the effective incoming price
and the old price are both non-null and differ, none otherwise. -/
def priceEventsFor (row : Row) (now : Int) (l : Listing) :
    List PriceEvent :=
  match effectiveAdvPrice row, l.advertised_price with
  | some newP, some oldP =>
    if newP ≠ oldP then
      [{ dealer_id := row.dealer_id, vin := pyUpper row.vin,
         observed_at := rowObservedAt now row,
         old_price := oldP, new_price := newP,
         delta := newP - oldP,
         pct := if oldP ≠ 0 then some ((newP - oldP) / oldP * 100)
                else none }]
    else []
  | _, _ => []

/-- One iteration of the row loop of `upsert_observations_and_listings`
(ingest.py, lines 84–195), acting on the session state. -/
def applyRow (source : String) (now : Int) (s : IngestState) (row : Row) :
    IngestState :=
  let vin := pyUpper row.vin
  let observed_at := rowObservedAt now row
  let vehicle_data := row.vehicle.getD {}
  let existingVehicle := s.vehicles.find? fun v => v.vin = vin
  let vehicle := mergeVehicle now vin vehicle_data existingVehicle
  let vehicles :=
    match existingVehicle with
    | some _ => s.vehicles.map fun v => if v.vin = vin then vehicle else v
    | none => s.vehicles ++ [vehicle]
  let advertised_price := effectiveAdvPrice row
  let msrp := row.msrp
  let payloadAssumes := row.advertised_price.isNone && msrp.isSome
  let observation : Observation :=
    { job_id := uuidOrZero row.job_id, observed_at := observed_at,
      dealer_id := row.dealer_id, vin := vin, vdp_url := row.vdp_url,
      advertised_price := advertised_price, msrp := msrp,
      payloadOpaque := row.payloadOpaque,
      payloadAssumesMsrp := payloadAssumes,
      raw_blob_key := row.raw_blob_key,
      source := if strTruthy row.source then row.source.getD "" else source }
  let observations := s.observations ++ [observation]
  match findListing s.listings row.dealer_id vin with
  | none =>
    { vehicles := vehicles,
      listings := s.listings ++ [newListingFor row now vehicle.msrp],
      observations := observations, price_events := s.price_events }
  | some l =>
    let updated := updatedListingFor row now vehicle.msrp l
    let listings := s.listings.map fun x =>
      if x.dealer_id = row.dealer_id ∧ x.vin = vin then updated else x
    { vehicles := vehicles, listings := listings,
      observations := observations,
      price_events := s.price_events ++ priceEventsFor row now l }

/-- One row-loop iteration as the database session actually executes it.
The session is created with `autoflush=False` (db/session.py, line 14), so
the listing SELECT of a row sees only listings whose `(dealer_id, vin)`
key was committed before the batch began (`preKeys`) — those it receives
as the identity-mapped, possibly already-mutated objects, which is what
`applyRow`'s lookup over the threaded state returns.  A listing *created*
by an earlier row of the same batch is pending and unflushed, hence
invisible: the row then takes the create branch again and `session.add`s
a second object with the same composite primary key, and the next flush
(at the latest, the commit of `session_scope`) raises `IntegrityError`,
rolling the whole batch back — modelled as `.error` with no state
change. -/
def applyRowInBatch (source : String) (now : Int)
    (preKeys : List (Int × String)) (s : IngestState) (row : Row) :
    Except String IngestState :=
  if (row.dealer_id, pyUpper row.vin) ∈ preKeys then
    .ok (applyRow source now s row)
  else
    match findListing s.listings row.dealer_id (pyUpper row.vin) with
    | some _ =>
      .error "IntegrityError: duplicate (dealer_id, vin) in pending inserts"
    | none => .ok (applyRow source now s row)

/-- Models `upsert_observations_and_listings(rows, source)`: the row loop
inside one `session_scope` transaction.  `.ok` is the committed state
(the returned counters equal the growth of the state lists, since the
loop only ever appends to them); `.error` is an aborted transaction —
the rollback leaves the database exactly as it was and the exception
propagates to the caller. -/
def upsert_observations_and_listings (rows : List Row) (source : String)
    (now : Int) (s : IngestState) : Except String IngestState :=
  rows.foldlM (applyRowInBatch source now (s.listings.map listingKey)) s

/-! ## Claim C9 — DealerOn parser
(`parse_inventory`, src/backend/app/parsers/dealer_on.py, lines 81–193)

The markup-level extraction steps (`_extract_tagging_data`,
`_extract_host_and_query`) are embedded at the level of their results: a
page is given by the decoded tagging-data dict (or `none` when the script
is absent / invalid JSON / the empty dict — all of which make
`if not tagging_data` true), the canonical host and the carried-over query
parameters. The HTTP follow-up `_fetch_inventory_json` is a function
parameter mapping the request the code builds to either a payload or an
`httpx.HTTPError` message (an HTTP 404 response surfaces through
`raise_for_status` as such an error). Price values arrive pre-coerced as
`Option Rat` (`float(...)` failures and `None`/`""` both map to `none`). -/

/-- Models `dealeron_tagging_data` fields read by `parse_inventory`.  `dealerId`
and `pageId` are the coalesced `get("dealerId", get("DealerId"))`
values. -/
structure TaggingData where
  dealerId : Option String := none
  pageId : Option String := none
  statusCode : Option Int := none
  items : Option (List String) := none
deriving Repr

/-- Models `VehicleImageModel` sub-dict fields used. -/
structure VehicleImageModel where
  vin : Option String := none
  photoSrc : Option String := none
  detailUrl : Option String := none
deriving Repr

/-- Models `VehicleCard` fields used by the row mapping. -/
structure VehicleCard where
  vehicleVin : Option String := none
  imageModel : Option VehicleImageModel := none
  detailUrl : Option String := none
  internetPrice : Option Rat := none
  taggingPrice : Option Rat := none
  msrp : Option Rat := none
  inTransit : Bool := false
  inProduction : Bool := false
  stockNumber : Option String := none
  trim : Option String := none
  model : Option String := none
  year : Option Int := none
deriving Repr

/-- Cosmos SRP response: `DisplayCards` is either absent / not a list
(`none`) or a list of cards, each optionally carrying a `VehicleCard`
dict (`none` models a non-dict card or a missing key). -/
structure DealerOnPayload where
  displayCards : Option (List (Option VehicleCard)) := none
deriving Repr

/-- A DealerOn page after markup extraction. `rawFalsy` models
`if not markdown_or_html` (empty input). -/
structure DealerOnPage where
  rawFalsy : Bool := false
  tagging : Option TaggingData := none
  host : Option String := none
  queryParams : List (String × String) := []
deriving Repr

/-- The GET request `parse_inventory` issues against the Cosmos SRP API. -/
structure CosmosRequest where
  url : String
  params : List (String × String)
deriving DecidableEq, Repr

/-- A normalized inventory row as produced by the DealerOn parser. -/
structure DealerOnRow where
  vin : String
  advertised_price : Option Rat
  msrp : Option Rat
  vdp_url : Option String
  stock_number : Option String
  status : String
  trim : Option String
  model : Option String
  year : Option Int
  image_url : Option String
deriving Repr

/-- Python whitespace as stripped by `str.strip()` (Unicode whitespace
property). -/
def isPyWhitespace (c : Char) : Bool :=
  c ∈ ['\t', '\n', '\x0b', '\x0c', '\r', '\x1c', '\x1d', '\x1e', '\x1f',
       ' ', '\x85', '\xa0', ' ', ' ', ' ', ' ',
       ' ', ' ', ' ', ' ', ' ', ' ',
       ' ', ' ', ' ', ' ', ' ', ' ',
       '　']

/-- Models `str.strip()`. -/
def pyStrip (s : String) : String :=
  String.mk (((s.data.dropWhile isPyWhitespace).reverse.dropWhile
    isPyWhitespace).reverse)

/-- Decimal digit list → `Nat`. -/
def digitsToNat (l : List Char) : Nat :=
  l.foldl (fun n c => n * 10 + (c.toNat - '0'.toNat)) 0

/-- Models `int(str(x))` for the dealer/page ids: optional surrounding
whitespace, an optional sign, then one or more decimal digits (Python
also accepts `_` digit separators; not modelled, no claim uses them). -/
def pyParseInt (s : String) : Option Int :=
  let t := (pyStrip s).data
  let (sign, digits) :=
    match t with
    | '-' :: rest => ((-1 : Int), rest)
    | '+' :: rest => ((1 : Int), rest)
    | rest => ((1 : Int), rest)
  if digits ≠ [] ∧ digits.all Char.isDigit then
    some (sign * Int.ofNat (digitsToNat digits))
  else none

/-- Models `_normalize_price` (dealer_on.py, lines 69–78) on an already-numeric
or absent value: non-positive values are discarded. -/
def normalizePrice (v : Option Rat) : Option Rat :=
  match v with
  | none => none
  | some x => if x ≤ 0 then none else some x

/-- Dict construction `params[key] = value` over an association list:
later assignments override earlier ones, keeping first-assignment
order (Python dict semantics). -/
def dictAssign (d : List (String × String)) (key value : String) :
    List (String × String) :=
  if d.any (fun p => p.1 = key) then
    d.map fun p => if p.1 = key then (key, value) else p
  else d ++ [(key, value)]

/-- The map over `DisplayCards[*]` (dealer_on.py, lines 148–191). -/
def dealerOnCardRow (host : String) (card : Option VehicleCard) :
    Option DealerOnRow :=
  match card with
  | none => none
  | some vc =>
    let imageModel := vc.imageModel.getD {}
    match strOr vc.vehicleVin imageModel.vin with
    | none => none
    | some vin0 =>
      let vin := pyUpper (pyStrip vin0)
      let image_url :=
        match imageModel.photoSrc with
        | some src =>
          if src ≠ "" then
            some (if src.startsWith "http" then src
                  else s!"https://{host}{src}")
          else none
        | none => none
      let vdp_url :=
        match strOr vc.detailUrl imageModel.detailUrl with
        | some u =>
          some (if u.startsWith "http" then u else s!"https://{host}{u}")
        | none => none
      let advertised_price :=
        match normalizePrice vc.internetPrice with
        | some p => some p
        | none => normalizePrice vc.taggingPrice
      some
        { vin := vin,
          advertised_price := advertised_price,
          msrp := normalizePrice vc.msrp,
          vdp_url := vdp_url,
          stock_number := vc.stockNumber,
          status := if vc.inTransit || vc.inProduction then "in_transit"
                    else "available",
          trim := vc.trim, model := vc.model, year := vc.year,
          image_url := image_url }

/-- Models `page_size = max(|items|, 12)` (dealer_on.py, lines 121–125). -/
def cosmosPageSize (tagging : TaggingData) : Nat :=
  match tagging.items with
  | some items => max items.length 12
  | none => 12

/-- The Cosmos SRP request built on lines 127–137: base parameters, then
the pass-through query parameters assigned on top (dict semantics). -/
def cosmosRequestFor (tagging : TaggingData)
    (queryParams : List (String × String)) (host : String)
    (dealerId pageId : Int) : CosmosRequest :=
  let pageSize := cosmosPageSize tagging
  let baseParams : List (String × String) :=
    [("host", host), ("PageNumber", "1"),
     ("PageSize", toString pageSize),
     ("displayCardsShown", toString pageSize)]
  { url :=
      s!"https://{host}/api/vhcliaa/vehicle-pages/cosmos/srp/vehicles/{dealerId}/{pageId}",
    params :=
      queryParams.foldl (fun d kv => dictAssign d kv.1 kv.2) baseParams }

/-- Models `parse_inventory` for DealerOn, over an extracted page and the Cosmos
API oracle.  Errors are `DealerOnParseError` messages. -/
def dealerOnParseInventory
    (api : CosmosRequest → Except String DealerOnPayload)
    (page : DealerOnPage) : Except String (List DealerOnRow) :=
  if page.rawFalsy then .ok []
  else
    match page.tagging with
    | none =>
      .error "Unable to locate dealeron_tagging_data script in markup."
    | some tagging =>
      match tagging.dealerId, tagging.pageId with
      | none, _ => .error "dealeron_tagging_data missing dealerId or pageId."
      | _, none => .error "dealeron_tagging_data missing dealerId or pageId."
      | some dealerIdRaw, some pageIdRaw =>
        match pyParseInt dealerIdRaw, pyParseInt pageIdRaw with
        | none, _ => .error "dealerId or pageId is not numeric."
        | _, none => .error "dealerId or pageId is not numeric."
        | some dealerId, some pageId =>
          match page.host with
          | none =>
            .error "Unable to determine host for DealerOn page from markup."
          | some host =>
            if tagging.statusCode = some 404 then .ok []
            else
              match api (cosmosRequestFor tagging page.queryParams host
                  dealerId pageId) with
              | .error msg =>
                .error s!"DealerOn API request failed: {msg}"
              | .ok payload =>
                match payload.displayCards with
                | none => .ok []
                | some cards => .ok (cards.filterMap (dealerOnCardRow host))

/-! ## Claim C10 — generic heuristic inventory parser
(`parse_inventory_with_config`, src/backend/app/parsers/_inventory_common.py)

Regex patterns are embedded as explicit scanners with Python `re`
left-to-right search semantics. `\w` (for the `\b` boundaries of
`VIN_RE`) is modelled as ASCII `[A-Za-z0-9_]`; Python's `\w` also covers
non-ASCII word characters, which no VIN contains. The configurable
`stock_patterns` (arbitrary compiled regexes supplied by each backend
config) are modelled as oracle functions `String → Option String`
returning the first match's group 1. Prices are `Rat` (the decimal
strings matched by `PRICE_RE` are handled exactly). -/

/-- The character class of `VIN_RE` = `[A-HJ-NPR-Z0-9]` with
`re.IGNORECASE`: digits, and letters except I, O, Q in either case. -/
def isVinChar (c : Char) : Bool :=
  let u := c.toUpper
  c.isDigit ||
    (('A' ≤ u ∧ u ≤ 'Z' : Bool) && u ≠ 'I' && u ≠ 'O' && u ≠ 'Q')

/-- Models `\w` for the `\b` boundaries (ASCII model). -/
def isWordChar (c : Char) : Bool :=
  c.isAlphanum || c = '_'

/-- Models `VIN_RE.search(line)`: the leftmost position where a word boundary,
17 VIN-class characters, and a trailing word boundary line up.  Returns
`(text before, the match, text after)`. -/
def vinSearchAux (prevIsWord : Bool) (acc : List Char) :
    List Char → Option (List Char × List Char × List Char)
  | [] => none
  | rest@(c :: cs) =>
    let candidate := rest.take 17
    if ¬prevIsWord && candidate.length = 17 && candidate.all isVinChar &&
        (match (rest.drop 17).head? with
         | some d => ¬isWordChar d
         | none => true) then
      some (acc.reverse, candidate, rest.drop 17)
    else
      vinSearchAux (isWordChar c) (c :: acc) cs

/-- Models `VIN_RE.search` over a whole line (no character precedes position 0,
so the initial boundary holds there). -/
def vinSearch (l : List Char) : Option (List Char × List Char × List Char) :=
  vinSearchAux false [] l

/-- Models `_strip_tags`: `re.sub(r"<[^>]+>", " ", raw)` — every `<…>` with a
non-empty, `>`-free body becomes one space. -/
def stripTagsFuel : Nat → List Char → List Char
  | 0, _ => []
  | _, [] => []
  | fuel + 1, '<' :: rest =>
    let inner := rest.takeWhile (· ≠ '>')
    match rest.dropWhile (· ≠ '>') with
    | '>' :: rest2 =>
      if inner.isEmpty then '<' :: stripTagsFuel fuel rest
      else ' ' :: stripTagsFuel fuel rest2
    | _ => '<' :: stripTagsFuel fuel rest
  | fuel + 1, c :: rest => c :: stripTagsFuel fuel rest

/-- Models `_strip_tags` (fuel-indexed scan; every step consumes at least one
character, so starting the fuel at the input length is exact). -/
def stripTags (l : List Char) : List Char :=
  stripTagsFuel l.length l

/-- The line-terminator characters recognised by `str.splitlines`. -/
def isLineTerm (c : Char) : Bool :=
  c ∈ ['\n', '\r', '\x0b', '\x0c', '\x1c', '\x1d', '\x1e', '\x85',
       ' ', ' ']

/-- Models `str.splitlines()`: `\r\n` counts as a single terminator, a trailing
terminator does not open an extra empty line, the empty string has no
lines. -/
def pySplitlinesAux (acc : List Char) : List Char → List (List Char)
  | [] => if acc.isEmpty then [] else [acc.reverse]
  | '\r' :: '\n' :: rest => acc.reverse :: pySplitlinesAux [] rest
  | c :: rest =>
    if isLineTerm c then acc.reverse :: pySplitlinesAux [] rest
    else pySplitlinesAux (c :: acc) rest

/-- Models `str.splitlines()` — note an empty input yields no lines, so an
all-empty `cleaned` never reaches the loop body. -/
def pySplitlines (l : List Char) : List (List Char) :=
  pySplitlinesAux [] l

/-- The comma groups `(?:,[0-9]{3})*` of `PRICE_RE` (greedy). -/
def priceCommaGroups (acc : List Char) :
    List Char → List Char × List Char
  | ',' :: a :: b :: c :: rest =>
    if a.isDigit ∧ b.isDigit ∧ c.isDigit then
      priceCommaGroups (acc ++ [a, b, c]) rest
    else (acc, ',' :: a :: b :: c :: rest)
  | rest => (acc, rest)

/-- Try `([0-9]{1,3}(?:,[0-9]{3})*(?:\.[0-9]{2})?)` at the given
position, returning the numeric value after `.replace(",", "")` and
`float(...)`. -/
def tryPriceNumber (l : List Char) : Option Rat :=
  let digits := (l.takeWhile Char.isDigit).take 3
  if digits.isEmpty then none
  else
    let rest := l.drop digits.length
    let (groupDigits, rest2) := priceCommaGroups [] rest
    let intPart := digitsToNat (digits ++ groupDigits)
    match rest2 with
    | '.' :: x :: y :: _ =>
      if x.isDigit ∧ y.isDigit then
        some ((intPart : Rat) + (digitsToNat [x, y] : Rat) / 100)
      else some (intPart : Rat)
    | _ => some (intPart : Rat)

/-- Models `_parse_price`: `PRICE_RE.search(token)` — scan for a `$`, skip
whitespace, then match the price number; on failure keep scanning. -/
def parsePriceChars : List Char → Option Rat
  | [] => none
  | '$' :: rest =>
    match tryPriceNumber (rest.dropWhile isPyWhitespace) with
    | some q => some q
    | none => parsePriceChars rest
  | _ :: rest => parsePriceChars rest

/-- Substring test (`needle in hay` for Python strings; the empty needle
is contained in everything). -/
def isSubOf (needle : List Char) : List Char → Bool
  | [] => needle.isEmpty
  | hay@(_ :: rest) => needle.isPrefixOf hay || isSubOf needle rest

/-- Models `needle in hay` on strings. -/
def strContains (hay needle : String) : Bool :=
  isSubOf needle.data hay.data

/-- Models `_extract_status`: first status-map pattern contained in the
uppercased snippet wins. -/
def extractStatus (statusMap : List (String × String)) (snippet : String) :
    Option String :=
  (statusMap.find? fun p => strContains (pyUpper snippet) p.1).map (·.2)

/-- Models `_extract_stock`: first configured pattern that matches; the matched
group is stripped. -/
def extractStock (matchers : List (String → Option String))
    (snippet : String) : Option String :=
  match matchers with
  | [] => none
  | m :: ms =>
    match m snippet with
    | some r => some (pyStrip r)
    | none => extractStock ms snippet

/-- The body class of `URL_RE` = `[^\s\"')>]`. -/
def urlBodyChar (c : Char) : Bool :=
  ¬isPyWhitespace c ∧ c ∉ ['"', '\'', ')', '>']

/-- Try `https?://[^\s\"')>]+` (case-insensitive scheme) at the current
position; returns the match and the remaining input. -/
def matchUrlAt (l : List Char) : Option (String × List Char) :=
  match l with
  | h :: t1 :: t2 :: p :: rest =>
    if [h, t1, t2, p].map Char.toLower = ['h', 't', 't', 'p'] then
      match rest with
      | s :: ':' :: '/' :: '/' :: rest2 =>
        if s.toLower = 's' then
          let body := rest2.takeWhile urlBodyChar
          if body.isEmpty then none
          else some (String.mk ([h, t1, t2, p, s, ':', '/', '/'] ++ body),
                     rest2.drop body.length)
        else
          -- `https?` backtracks to the plain `http` variant
          match h, t1, t2, p, s, rest with
          | h, t1, t2, p, ':', '/' :: '/' :: rest3 =>
            let body := rest3.takeWhile urlBodyChar
            if body.isEmpty then none
            else some (String.mk ([h, t1, t2, p, ':', '/', '/'] ++ body),
                       rest3.drop body.length)
          | _, _, _, _, _, _ => none
      | ':' :: '/' :: '/' :: rest2 =>
        let body := rest2.takeWhile urlBodyChar
        if body.isEmpty then none
        else some (String.mk ([h, t1, t2, p, ':', '/', '/'] ++ body),
                   rest2.drop body.length)
      | _ => none
    else none
  | _ => none

/-- Models `URL_RE.finditer`: all non-overlapping matches, left to right.  The
fuel starts at the input length, which bounds the number of scan steps
(each step consumes at least one character). -/
def urlFindAllFuel : Nat → List Char → List String
  | 0, _ => []
  | _, [] => []
  | fuel + 1, l@(_ :: rest) =>
    match matchUrlAt l with
    | some (url, restAfter) => url :: urlFindAllFuel fuel restAfter
    | none => urlFindAllFuel fuel rest

/-- All `URL_RE` matches in a snippet. -/
def urlFindAll (l : List Char) : List String :=
  urlFindAllFuel l.length l

/-- Models `_extract_vdp_url`: the first URL that contains the VIN
(case-insensitively) or one of the configured keywords. -/
def extractVdpUrl (urlKeywords : List String) (vin : String)
    (snippet : String) : Option String :=
  let rec pick : List String → Option String
    | [] => none
    | url :: rest =>
      let lowered := pyLower url
      if strContains lowered (pyLower vin) then some url
      else if urlKeywords.any (fun kw => strContains lowered kw) then some url
      else pick rest
  pick (urlFindAll snippet.data)

/-- Models `ParserConfig` (the backend-specific configuration). -/
structure HeurParserConfig where
  status_map : List (String × String)
  price_keywords_priority : List (String × Int)
  url_keywords : List String := ["inventory", "vehicle", "vdp"]
  stockMatchers : List (String → Option String)

/-- The per-VIN record accumulated by the parser; `priceRank` is the
internal `_price_rank` (`none` = `float("inf")`). -/
structure HeurRecord where
  vin : String
  advertised_price : Option Rat := none
  msrp : Option Rat := none
  vdp_url : Option String := none
  stock_number : Option String := none
  status : Option String := none
  priceRank : Option Int := none

/-- An output row (`_price_rank` popped). -/
structure HeurRow where
  vin : String
  advertised_price : Option Rat
  msrp : Option Rat
  vdp_url : Option String
  stock_number : Option String
  status : Option String

/-- First price keyword contained in the lowered line, with its
priority. -/
def firstKeywordRank (kws : List (String × Int)) (lower : String) :
    Option Int :=
  (kws.find? fun p => strContains lower p.1).map (·.2)

/-- The price/MSRP block of `_apply_line` (lines 76–98). -/
def heurApplyPrice (config : HeurParserConfig) (line : String)
    (record : HeurRecord) : HeurRecord :=
  let lower := pyLower line
  match parsePriceChars line.data with
  | none => record
  | some price =>
    if strContains lower "msrp" || strContains lower "sticker price" then
      if record.msrp = none then { record with msrp := some price }
      else record
    else
      let rank :=
        match firstKeywordRank config.price_keywords_priority lower with
        | some r => some r
        | none => if strContains line "$" then some (5 : Int) else none
      match rank with
      | none => record
      | some rank =>
        let lowerRank :=
          match record.priceRank with
          | none => true
          | some cr => rank < cr
        let tieBetter :=
          record.priceRank = some rank ∧
            (record.advertised_price = none ∨
             ∃ cp, record.advertised_price = some cp ∧ price < cp)
        if lowerRank ∨ tieBetter then
          { record with advertised_price := some price,
                        priceRank := some rank }
        else record

/-- The stock-number block of `_apply_line` (lines 100–102). -/
def heurApplyStock (config : HeurParserConfig) (line : String)
    (record : HeurRecord) : HeurRecord :=
  match extractStock config.stockMatchers line with
  | some sn =>
    if sn ≠ "" ∧ ¬strTruthy record.stock_number then
      { record with stock_number := some sn }
    else record
  | none => record

/-- The status block of `_apply_line` (lines 104–106). -/
def heurApplyStatus (config : HeurParserConfig) (line : String)
    (record : HeurRecord) : HeurRecord :=
  match extractStatus config.status_map line with
  | some st => if st ≠ "" then { record with status := some st }
               else record
  | none => record

/-- The VDP-URL block of `_apply_line` (lines 108–111). -/
def heurApplyVdp (config : HeurParserConfig) (line : String)
    (record : HeurRecord) : HeurRecord :=
  if ¬strTruthy record.vdp_url then
    match extractVdpUrl config.url_keywords record.vin line with
    | some u => if u ≠ "" then { record with vdp_url := some u }
                else record
    | none => record
  else record

/-- Models `_apply_line` (_inventory_common.py, lines 68–111): the four mutation
blocks applied in statement order. -/
def applyHeurLine (config : HeurParserConfig) (record : HeurRecord)
    (line : String) : HeurRecord :=
  if line = "" then record
  else
    heurApplyVdp config line
      (heurApplyStatus config line
        (heurApplyStock config line
          (heurApplyPrice config line record)))

/-- Models `records.setdefault(vin, fresh)`: keep an existing entry, else append
a fresh one (Python dicts preserve insertion order). -/
def setdefaultRecord (records : List (String × HeurRecord)) (vin : String) :
    List (String × HeurRecord) :=
  if records.any (fun p => p.1 = vin) then records
  else records ++ [(vin, { vin := vin })]

/-- In-place mutation of the record stored under a key. -/
def updateRecord (records : List (String × HeurRecord)) (vin : String)
    (f : HeurRecord → HeurRecord) : List (String × HeurRecord) :=
  records.map fun p => if p.1 = vin then (p.1, f p.2) else p

/-- The body of the line loop of `parse_inventory_with_config`
(lines 122–151), acting on `(records, current_vin)`. -/
def heurLineStep (config : HeurParserConfig)
    (st : List (String × HeurRecord) × Option String) (rawLine : List Char) :
    List (String × HeurRecord) × Option String :=
  let line := pyStrip (String.mk rawLine)
  if line = "" then st
  else
    match vinSearch line.data with
    | some (before, vinChars, after) =>
      let vin := pyUpper (String.mk vinChars)
      let records := setdefaultRecord st.1 vin
      let remainder := pyStrip (String.mk (before ++ [' '] ++ after))
      let records :=
        if remainder ≠ "" then
          updateRecord records vin (fun r => applyHeurLine config r remainder)
        else records
      (records, some vin)
    | none =>
      match st.2 with
      | none => st
      | some currentVin =>
        (updateRecord st.1 currentVin
          (fun r => applyHeurLine config r line), st.2)

/-- Drop `_price_rank` from a record. -/
def heurRecordToRow (r : HeurRecord) : HeurRow :=
  { vin := r.vin, advertised_price := r.advertised_price, msrp := r.msrp,
    vdp_url := r.vdp_url, stock_number := r.stock_number,
    status := r.status }

/-- Models `parse_inventory_with_config(markdown_or_html, config)`
(_inventory_common.py, lines 114–158). -/
def parse_inventory_with_config (config : HeurParserConfig)
    (markdown_or_html : String) : List HeurRow :=
  let cleaned := stripTags markdown_or_html.data
  if cleaned.isEmpty then []
  else
    let final :=
      (pySplitlines cleaned).foldl (heurLineStep config) ([], none)
    final.1.map fun p => heurRecordToRow p.2

/-! ## Auxiliary predicates used by the theorems -/

/-- The well-formedness invariant of the heuristic parser's `records`
dict: keys are pairwise distinct and every stored record's `vin` equals
its key. -/
def recordsWF (records : List (String × HeurRecord)) : Prop :=
  (records.map Prod.fst).Nodup ∧ ∀ p ∈ records, p.2.vin = p.1

/-- The five listing columns named by the replay-idempotence claim:
advertised_price, status, first_seen_at, last_seen_at, source_rank. -/
def listingProj (l : Listing) :
    Option Rat × String × Option Int × Option Int × Option Int :=
  (l.advertised_price, l.status, l.first_seen_at, l.last_seen_at,
   l.source_rank)

/-- Models `(dealer_id, vin)` is the listings primary key: no two rows share
it. -/
def nodupKeys (listings : List Listing) : Prop :=
  (listings.map listingKey).Nodup

/-- A listing on which re-applying the given row is a no-op for the five
claimed columns, and which triggers no price event: its status is the
row's effective status, its advertised price agrees with any effective
incoming price, its seen-interval already covers the row's, and its
source rank is already at most any supplied rank. -/
def StableRow (now : Int) (r : Row) (l : Listing) : Prop :=
  l.status = rowStatus r ∧
  (∀ a, effectiveAdvPrice r = some a → l.advertised_price = some a) ∧
  (∃ f, l.first_seen_at = some f ∧ f ≤ rowFirstSeen now r) ∧
  (∃ g, l.last_seen_at = some g ∧ rowLastSeen now r ≤ g) ∧
  (∀ nr, r.source_rank = some nr →
    ∃ p, l.source_rank = some p ∧ p ≤ nr)

/-! # Theorems -/

/-! ### C1 -/

/-- C1: the Fetch Client is claimed to accept
`fetch(url, allow_extract_fallback, proxy?)` for every optional proxy hint,
in particular the proxy the Orchestrator extracts from `scraping_config`
and passes on each task's fetch call.  In the code,
`FirecrawlClient.fetch` declares no `proxy` parameter (and no `**kwargs`),
while `_process_task` passes the keyword `proxy` on every fetch call, so
Python rejects the call with `TypeError` instead of returning a
`FetchResult`: the orchestrator's keyword set does not bind against the
declared parameters. -/
theorem claim_C1_fetch_rejects_proxy_keyword :
    pyCallBindsKeywords firecrawlFetchParamNames processTaskFetchKeywordNames
        = false ∧
      "proxy" ∈ processTaskFetchKeywordNames ∧
      "proxy" ∉ firecrawlFetchParamNames := by
  decide

/-! ### C6 -/

/-- Models `postLoop` on a fully retried-class outcome list exhausts its fuel and
escalates the last recorded error. -/
theorem postLoop_exhaust (first : List TransportOutcome)
    (o : TransportOutcome) (rest : List TransportOutcome)
    (lastError : Option LastError)
    (hfirst : ∀ x ∈ first, retriedClass x = true)
    (ho : retriedClass o = true) :
    postLoop (first.length + 1) (first ++ o :: rest) lastError =
      .error (postEscalate (lastErrorOf o)) := by
  induction first generalizing lastError with
  | nil =>
    cases o with
    | transportError m => simp [postLoop, lastErrorOf]
    | response code body =>
      simp only [retriedClass, decide_eq_true_eq] at ho
      simp [postLoop, lastErrorOf, ho]
  | cons x first ih =>
    have hx : retriedClass x = true := hfirst x (by simp)
    have hrest : ∀ y ∈ first, retriedClass y = true := fun y hy =>
      hfirst y (by simp [hy])
    cases x with
    | transportError m =>
      simpa [postLoop] using ih _ hrest
    | response code body =>
      simp only [retriedClass, decide_eq_true_eq] at hx
      simpa [postLoop, hx] using ih _ hrest

/-- C6 (counterexample): with `max_attempts = 1` and a single retryable
HTTP 429 response, `_post` exhausts its attempts and the error surfaced is
`FirecrawlRetryableError` — the retryable kind, not the terminal kind the
claim requires. -/
theorem claim_C6_counterexample :
    firecrawlPost 1 [.response 429 (some "{}")] =
      .error (.retryable "Firecrawl returned 429 for path") ∧
    ∀ msg, FirecrawlErr.retryable "Firecrawl returned 429 for path" ≠
      .terminal msg := by
  constructor
  · rfl
  · intro msg h
    cases h

/-- C6 (amended): transport errors and HTTP statuses in
{429, 500, 502, 503, 504} are retried up to `max_attempts`; once attempts
are exhausted, a final transport error surfaces as the terminal
`FirecrawlError`, while a final retryable HTTP status surfaces as the
retryable error kind itself (because `FirecrawlRetryableError` is a
`FirecrawlError` and is re-raised as-is). -/
theorem claim_C6_amended (first : List TransportOutcome)
    (o : TransportOutcome) (rest : List TransportOutcome)
    (hfirst : ∀ x ∈ first, retriedClass x = true)
    (ho : retriedClass o = true) :
    (∀ m, o = .transportError m →
      firecrawlPost (first.length + 1) (first ++ o :: rest) =
        .error (.terminal m)) ∧
    (∀ code body, o = .response code body →
      firecrawlPost (first.length + 1) (first ++ o :: rest) =
        .error (.retryable s!"Firecrawl returned {code} for path")) := by
  constructor
  · intro m hm
    subst hm
    simpa [lastErrorOf, postEscalate] using
      postLoop_exhaust first _ rest none hfirst ho
  · intro code body hm
    subst hm
    have hcode : code ∈ RETRYABLE_STATUS := by
      simpa [retriedClass] using ho
    simpa [lastErrorOf, postEscalate, hcode] using
      postLoop_exhaust first _ rest none hfirst ho

/-- C6 (witness): two attempts, a transport error then an HTTP 500,
surfacing the retryable kind. -/
theorem claim_C6_amended_witness :
    firecrawlPost 2 [.transportError "boom", .response 500 none] =
      .error (.retryable "Firecrawl returned 500 for path") :=
  (claim_C6_amended [.transportError "boom"] (.response 500 none) []
    (by decide) (by decide)).2 500 none rfl

/-! ### C7 -/

/-- C7 (counterexample): a row supplying `source_rank = 0` that creates a
new listing is persisted with `source_rank = 100`, not `0`: Python's
`source_rank_value or 100` treats `0` as absent (ingest.py, line 151). -/
theorem claim_C7_counterexample :
    ((applyRow "inventory_list" 0 {}
        { dealer_id := 1, vin := "JTENU5JR4R5299999",
          observed_at := some 0, source_rank := some 0 }).listings.map
      (fun l => l.source_rank)) = [some 100] := by
  rfl

/-- C7 (amended): when the Ingest Reconciler creates a new listing, its
`source_rank` equals the row's supplied `source_rank` for every non-zero
integer value, and defaults to 100 when the row supplies none **or
supplies 0** (Python `or` coalesces falsy `0`). -/
theorem claim_C7_amended (source : String) (now : Int) (row : Row)
    (s : IngestState)
    (hnew : findListing s.listings row.dealer_id (pyUpper row.vin) = none) :
    ((applyRow source now s row).listings.map (fun l => l.source_rank)) =
      s.listings.map (fun l => l.source_rank) ++
        [some (if row.source_rank = none ∨ row.source_rank = some 0 then 100
               else row.source_rank.getD 100)] := by
  simp only [applyRow, hnew]
  rcases h : row.source_rank with _ | v
  · simp [newListingFor, sourceRankOr100, h]
  · by_cases hv : v = 0 <;> simp [newListingFor, sourceRankOr100, h, hv]

/-- C7 (witness): a supplied rank of 10 is kept on the created listing. -/
theorem claim_C7_amended_witness :
    ((applyRow "upload" 0 {}
        { dealer_id := 2, vin := "V", observed_at := some 5,
          source_rank := some 10 }).listings.map (fun l => l.source_rank)) =
      [some 10] := by
  have h := claim_C7_amended "upload" 0
    { dealer_id := 2, vin := "V", observed_at := some 5,
      source_rank := some 10 } {} (by rfl)
  simpa using h

/-! ### C8 -/

/-- C8: the URL Builder fails only for missing tokens other than
`{city_code}`: a model outside the registry raises `UnsupportedModel`; if
any placeholder other than `{city_code}` is unresolved the build raises
`MissingPlaceholder`; when the only unresolved placeholder is
`{city_code}` the build succeeds; and on the spec's example, the template
`…?cy={city_code}&md=1` with no `city_code` resolves to `…?md=1` with the
dangling `cy=` parameter removed. -/
theorem claim_C8_url_builder (urljoin : String → String → String)
    (registry : List String) (model : String) (template : Option String)
    (scope : String) (tokens : String → Option String) (homepage : String) :
    (model ∉ registry →
      build_inventory_url urljoin registry model template scope tokens
          homepage = .error (.unsupportedModel model)) ∧
    (model ∈ registry →
      ∀ out missing,
        subPlaceholders tokens ((strOr template (some "")).getD "").data =
          (out, missing) →
        (missing.filter (· ≠ "city_code") = [] →
          ∃ u, build_inventory_url urljoin registry model template scope
                tokens homepage = .ok u) ∧
        (missing.filter (· ≠ "city_code") ≠ [] →
          build_inventory_url urljoin registry model template scope tokens
              homepage =
            .error (.missingPlaceholder (missing.filter (· ≠ "city_code"))))) ∧
    (build_inventory_url urljoin ["4Runner"] "4Runner"
        (some "https://x.example/new?cy={city_code}&md=1") "absolute"
        (fun _ => none) "" = .ok "https://x.example/new?md=1") := by
  refine ⟨?_, ?_, ?_⟩
  · intro hmem
    simp [build_inventory_url, hmem]
  · intro hmem out missing hsub
    have hmem' : ¬ model ∉ registry := by simp [hmem]
    constructor
    · intro hfilter
      unfold build_inventory_url
      rw [if_neg hmem']
      dsimp only
      rw [hsub]
      dsimp only
      rw [if_neg (fun h => h hfilter)]
      split <;> (split <;> exact ⟨_, rfl⟩)
    · intro hfilter
      unfold build_inventory_url
      rw [if_neg hmem']
      dsimp only
      rw [hsub]
      dsimp only
      rw [if_pos hfilter]
  · rfl

/-- C8 (witness): a model outside the registry is rejected with
`UnsupportedModel`. -/
theorem claim_C8_url_builder_witness :
    build_inventory_url (fun _ u => u) [] "Tundra" none "absolute"
        (fun _ => none) "" = .error (.unsupportedModel "Tundra") :=
  (claim_C8_url_builder (fun _ u => u) [] "Tundra" none "absolute"
    (fun _ => none) "").1 (by simp)

/-! ### C2 -/

/-- C2 (counterexample): a two-dealer job where one dealer's URL build
fails (its task is persisted `failed`) and the other dealer's task
succeeds closes with `fail_count = 0` and status `success`, although one
of the job's persisted tasks has status `failed` — the persisted
`fail_count` does not count tasks failed at URL build. -/
theorem claim_C2_counterexample :
    (let r := runJobModel (fun _ u => u) ["4Runner"] "4Runner"
        (fun _ => true)
        [{ id := 1, template := some "{dealer_code}", scope := "absolute",
           tokens := fun _ => none, homepage := "" },
         { id := 2, template := some "https://d.test/inv",
           scope := "absolute", tokens := fun _ => none, homepage := "" }]
     r.1.fail_count = 0 ∧ r.1.status = "success" ∧
       (r.2.filter (fun t => t.status = "failed")).length = 1) := by
  exact ⟨rfl, rfl, rfl⟩

/-- Booleans: the complement count of `true`s. -/
theorem length_sub_filter_id (l : List Bool) :
    l.length - (l.filter id).length = (l.filter (fun b => !b)).length := by
  induction l with
  | nil => rfl
  | cons b l ih =>
    have h : (l.filter id).length ≤ l.length := (l.filter_sublist).length_le
    cases b <;> simp [List.filter, ih] <;> omega

/-- C2 (amended): for every completed job, `success_count` equals the
number of the job's tasks persisted with status `success`, and
`fail_count` equals the number of tasks persisted `failed` **minus the
tasks failed immediately at URL build** (those are persisted `failed` but
excluded from the gathered results and hence from the counters); the job
closes with status `success` iff `fail_count == 0`, else `partial` iff
`success_count > 0`, else `failed` — so a job whose only failures are
URL-build failures still closes as `success`. -/
theorem claim_C2_amended (urljoin : String → String → String)
    (registry : List String) (model : String)
    (process : Int × String → Bool) (dealers : List DealerBuild) :
    (runJobModel urljoin registry model process dealers).1.success_count =
      (((runJobModel urljoin registry model process dealers).2.filter
        (fun t => t.status = "success")).length) ∧
    (runJobModel urljoin registry model process dealers).1.fail_count +
        buildFailCount urljoin registry model dealers =
      (((runJobModel urljoin registry model process dealers).2.filter
        (fun t => t.status = "failed")).length) ∧
    (runJobModel urljoin registry model process dealers).1.target_count =
      dealers.length ∧
    (runJobModel urljoin registry model process dealers).1.status =
      (if (runJobModel urljoin registry model process dealers).1.fail_count
          = 0 then "success"
       else if (runJobModel urljoin registry model process
          dealers).1.success_count > 0 then "partial"
       else "failed") := by
  refine ⟨?_, ?_, by simp [runJobModel], by rfl⟩
  · simp only [runJobModel]
    induction dealers with
    | nil => rfl
    | cons d ds ih =>
      rcases hb : build_inventory_url urljoin registry model d.template
          d.scope d.tokens d.homepage with e | url
      · simpa [hb] using ih
      · by_cases hp : process (d.id, url) <;> simp [hb, hp, ih]
  · simp only [runJobModel, buildFailCount]
    rw [length_sub_filter_id]
    induction dealers with
    | nil => rfl
    | cons d ds ih =>
      rcases hb : build_inventory_url urljoin registry model d.template
          d.scope d.tokens d.homepage with e | url
      · simp only [List.filterMap_cons, List.map_cons, List.filter_cons,
          List.length_cons, hb] at ih ⊢
        simp [ih]
        omega
      · by_cases hp : process (d.id, url) <;>
          simp [hb, hp, ih] <;> omega

/-! ### C4 -/

/-- Models `stepAbsent` never touches the columns the scope predicate reads. -/
theorem inAbsenceScope_stepAbsent (dealerId : Int) (model : String)
    (vehicles : List AbsVehicle) (observedVins : List String)
    (observedAt : Int) (l : AbsListing) :
    inAbsenceScope dealerId model vehicles
        (stepAbsent observedVins observedAt l) =
      inAbsenceScope dealerId model vehicles l := by
  simp only [stepAbsent]
  split
  · rfl
  · split
    · rfl
    · split <;> simp [inAbsenceScope]

/-- Models `stepAbsent` never changes the VIN. -/
theorem stepAbsent_vin (observedVins : List String) (observedAt : Int)
    (l : AbsListing) :
    (stepAbsent observedVins observedAt l).vin = l.vin := by
  simp only [stepAbsent]
  split
  · rfl
  · split
    · rfl
    · split <;> rfl

/-- Indexing `_mark_absent_listings` output. -/
theorem markAbsentListings_getElem? (dealerId : Int) (model : String)
    (observedVins : List String) (observedAt : Int)
    (vehicles : List AbsVehicle) (listings : List AbsListing) (i : Nat) :
    (markAbsentListings dealerId model observedVins observedAt vehicles
        listings)[i]? =
      listings[i]?.map fun l =>
        if inAbsenceScope dealerId model vehicles l then
          stepAbsent observedVins observedAt l
        else l := by
  simp [markAbsentListings]

/-- C4: for every listing in the Absence Reconciler's scope (same dealer,
vehicle model equal to the scraped model, `source_rank ≤ 50` or null)
whose VIN is absent from `observed_vins`: a `sold` listing is unchanged,
a `missing` one becomes `sold`, and any other status becomes `missing`;
hence starting from `available`, exactly two consecutive absence cycles
reach `sold` (after one cycle the status is `missing`, not `sold`; after
two it is `sold`; a third cycle leaves it `sold`), and a `sold` listing
never regresses. -/
theorem claim_C4_two_miss (dealerId : Int) (model : String)
    (observedVins : List String) (observedAt : Int)
    (vehicles : List AbsVehicle) (listings : List AbsListing) (i : Nat)
    (l : AbsListing) (hl : listings[i]? = some l)
    (hscope : inAbsenceScope dealerId model vehicles l = true)
    (habsent : pyUpper l.vin ∉ observedVins) :
    (pyLower l.status = "sold" →
      (markAbsentListings dealerId model observedVins observedAt vehicles
        listings)[i]? = some l) ∧
    (pyLower l.status = "missing" →
      ((markAbsentListings dealerId model observedVins observedAt vehicles
        listings)[i]?.map AbsListing.status) = some "sold") ∧
    (pyLower l.status ≠ "sold" → pyLower l.status ≠ "missing" →
      ((markAbsentListings dealerId model observedVins observedAt vehicles
        listings)[i]?.map AbsListing.status) = some "missing") ∧
    (l.status = "available" →
      ((markAbsentListings dealerId model observedVins observedAt vehicles
          listings)[i]?.map AbsListing.status) = some "missing" ∧
      ((markAbsentListings dealerId model observedVins observedAt vehicles
          listings)[i]?.map AbsListing.status) ≠ some "sold" ∧
      ((markAbsentListings dealerId model observedVins observedAt vehicles
          (markAbsentListings dealerId model observedVins observedAt vehicles
            listings))[i]?.map AbsListing.status) = some "sold" ∧
      ((markAbsentListings dealerId model observedVins observedAt vehicles
          (markAbsentListings dealerId model observedVins observedAt vehicles
            (markAbsentListings dealerId model observedVins observedAt
              vehicles listings)))[i]?.map AbsListing.status) =
        some "sold") := by
  have h1 : (markAbsentListings dealerId model observedVins observedAt
      vehicles listings)[i]? =
      some (stepAbsent observedVins observedAt l) := by
    rw [markAbsentListings_getElem?, hl]
    simp [hscope]
  refine ⟨?_, ?_, ?_, ?_⟩
  · intro hs
    rw [h1, stepAbsent]
    simp [habsent, hs]
  · intro hm
    have : pyLower l.status ≠ "sold" := by rw [hm]; decide
    rw [h1, stepAbsent]
    simp [habsent, this, hm]
  · intro hs1 hs2
    rw [h1, stepAbsent]
    simp [habsent, hs1, hs2]
  · intro ha
    have hlow : pyLower l.status = "available" := by rw [ha]; rfl
    have hns : pyLower l.status ≠ "sold" := by rw [hlow]; decide
    have hnm : pyLower l.status ≠ "missing" := by rw [hlow]; decide
    have hstep1 : stepAbsent observedVins observedAt l =
        { l with status := "missing" } := by
      rw [stepAbsent]
      simp [habsent, hns, hnm]
    have habsent1 : pyUpper ({ l with status := "missing" } :
        AbsListing).vin ∉ observedVins := habsent
    have hscope1 : inAbsenceScope dealerId model vehicles
        ({ l with status := "missing" } : AbsListing) = true := by
      rw [← hstep1, inAbsenceScope_stepAbsent]
      exact hscope
    have h2 : (markAbsentListings dealerId model observedVins observedAt
        vehicles (markAbsentListings dealerId model observedVins observedAt
          vehicles listings))[i]? =
        some (stepAbsent observedVins observedAt
          { l with status := "missing" }) := by
      rw [markAbsentListings_getElem?, h1, hstep1]
      simp [hscope1]
    set l2 : AbsListing :=
      { l with
        status := "sold",
        last_seen_at := some (l.last_seen_at.getD observedAt) } with hl2def
    have hstep2 : stepAbsent observedVins observedAt
        ({ l with status := "missing" } : AbsListing) = l2 := by
      rw [stepAbsent]
      simp [habsent1, pyLower, hl2def]
    have habsent2 : pyUpper l2.vin ∉ observedVins := habsent
    have hscope2 : inAbsenceScope dealerId model vehicles l2 = true := by
      rw [← hstep2, inAbsenceScope_stepAbsent, ← hstep1,
        inAbsenceScope_stepAbsent]
      exact hscope
    have hstep3 : stepAbsent observedVins observedAt l2 = l2 := by
      rw [stepAbsent]
      simp [habsent2, pyLower, hl2def]
    have h3 : (markAbsentListings dealerId model observedVins observedAt
        vehicles (markAbsentListings dealerId model observedVins observedAt
          vehicles (markAbsentListings dealerId model observedVins
            observedAt vehicles listings)))[i]? = some l2 := by
      rw [markAbsentListings_getElem?, h2, hstep2]
      simp [hscope2, hstep3]
    refine ⟨?_, ?_, ?_, ?_⟩
    · rw [h1, hstep1]
      rfl
    · rw [h1, hstep1]
      simp
    · rw [h2, hstep2, hl2def]
      rfl
    · rw [h3, hl2def]
      rfl

/-- C4 (witness): a single in-scope `available` listing, absent from an
empty observation set, is `missing` after one cycle and `sold` after
two. -/
theorem claim_C4_two_miss_witness :
    ((markAbsentListings 1 "4Runner" [] 7 [{ vin := "V1", model := "4Runner" }]
        [{ dealer_id := 1, vin := "V1", status := "available",
           source_rank := some 50, last_seen_at := some 3 }])[0]?.map
      AbsListing.status) = some "missing" ∧
    ((markAbsentListings 1 "4Runner" [] 7 [{ vin := "V1", model := "4Runner" }]
        (markAbsentListings 1 "4Runner" [] 7
          [{ vin := "V1", model := "4Runner" }]
          [{ dealer_id := 1, vin := "V1", status := "available",
             source_rank := some 50, last_seen_at := some 3 }]))[0]?.map
      AbsListing.status) = some "sold" := by
  have h := claim_C4_two_miss 1 "4Runner" [] 7
    [{ vin := "V1", model := "4Runner" }]
    [{ dealer_id := 1, vin := "V1", status := "available",
       source_rank := some 50, last_seen_at := some 3 }] 0
    { dealer_id := 1, vin := "V1", status := "available",
      source_rank := some 50, last_seen_at := some 3 }
    (by rfl) (by decide) (by decide)
  obtain ⟨hmiss, _, hsold, _⟩ := h.2.2.2 rfl
  exact ⟨hmiss, hsold⟩

/-! ### C3 -/

/-- C3: during upsert of a row for an existing listing `(dealer_id, vin)`,
a `PriceEvent` is emitted if and only if the effective incoming
`advertised_price` (after the MSRP fallback) is non-null, the listing's
previous `advertised_price` is non-null, and the two differ; the event
carries `old_price`, `new_price`, `delta = new − old`, and
`pct = delta/old·100` with `pct` null when `old = 0`. -/
theorem claim_C3_price_event (source : String) (now : Int) (row : Row)
    (s : IngestState) (l : Listing)
    (hfind : findListing s.listings row.dealer_id (pyUpper row.vin) =
      some l) :
    (∀ newP oldP, effectiveAdvPrice row = some newP →
      l.advertised_price = some oldP → newP ≠ oldP →
      (applyRow source now s row).price_events =
        s.price_events ++
          [{ dealer_id := row.dealer_id, vin := pyUpper row.vin,
             observed_at := rowObservedAt now row,
             old_price := oldP, new_price := newP,
             delta := newP - oldP,
             pct := if oldP ≠ 0 then some ((newP - oldP) / oldP * 100)
                    else none }]) ∧
    ((effectiveAdvPrice row = none ∨ l.advertised_price = none ∨
        effectiveAdvPrice row = l.advertised_price) →
      (applyRow source now s row).price_events = s.price_events) := by
  constructor
  · intro newP oldP hnew hold hne
    simp only [applyRow, hfind, priceEventsFor, hnew, hold]
    simp [hne]
  · intro h
    simp only [applyRow, hfind]
    rcases h with h | h | h
    · simp [priceEventsFor, h]
    · simp only [priceEventsFor, h]
      rcases hadv : effectiveAdvPrice row with _ | p <;> simp
    · rcases hadv : effectiveAdvPrice row with _ | p
      · simp [priceEventsFor, hadv]
      · rw [hadv] at h
        simp [priceEventsFor, hadv, ← h]

/-- C3 (witness): lowering a 47500 listing to 46950 emits exactly the
event `{old: 47500, new: 46950, delta: -550, pct: -550/47500·100}`. -/
theorem claim_C3_price_event_witness :
    (applyRow "inventory_list" 0
        { listings :=
            [{ dealer_id := 1, vin := "JTENU5JR4R5299999",
               status := "available", advertised_price := some 47500 }] }
        { dealer_id := 1, vin := "JTENU5JR4R5299999",
          observed_at := some 200,
          advertised_price := some 46950 }).price_events =
      [{ dealer_id := 1, vin := "JTENU5JR4R5299999", observed_at := 200,
         old_price := 47500, new_price := 46950, delta := -550,
         pct := some ((-550 : Rat) / 47500 * 100) }] := by
  have h := (claim_C3_price_event "inventory_list" 0
    { dealer_id := 1, vin := "JTENU5JR4R5299999",
      observed_at := some 200, advertised_price := some 46950 }
    { listings :=
        [{ dealer_id := 1, vin := "JTENU5JR4R5299999",
           status := "available", advertised_price := some 47500 }] }
    { dealer_id := 1, vin := "JTENU5JR4R5299999",
      status := "available", advertised_price := some 47500 }
    (by rfl)).1 46950 47500 (by rfl) (by rfl) (by norm_num)
  rw [h]
  have hvin : pyUpper "JTENU5JR4R5299999" = "JTENU5JR4R5299999" := by decide
  simp only [List.nil_append, List.cons.injEq, PriceEvent.mk.injEq, hvin]
  norm_num [rowObservedAt]

/-! ### C9 -/

/-- C9 (counterexample): a DealerOn page whose dealerId, pageId and host
extract successfully, but whose Cosmos SRP API call returns an HTTP 404
error, raises `DealerOnParseError` (the `httpx.HTTPError` from
`raise_for_status` is wrapped on lines 138–141) instead of yielding zero
rows. -/
theorem claim_C9_counterexample :
    dealerOnParseInventory (fun _ => .error "404 Client Error")
        { tagging := some { dealerId := some "11", pageId := some "22" },
          host := some "dealer.example" } =
      .error "DealerOn API request failed: 404 Client Error" ∧
    ∀ rows : List DealerOnRow,
      dealerOnParseInventory (fun _ => .error "404 Client Error")
          { tagging := some { dealerId := some "11", pageId := some "22" },
            host := some "dealer.example" } ≠ .ok rows := by
  constructor
  · rfl
  · intro rows h
    rw [(rfl : dealerOnParseInventory (fun _ => .error "404 Client Error")
        { tagging := some { dealerId := some "11", pageId := some "22" },
          host := some "dealer.example" } =
      .error "DealerOn API request failed: 404 Client Error")] at h
    cases h

/-- C9 (amended): for every input page from which dealerId, pageId and
host were successfully extracted, a `statusCode` of 404 in the embedded
tagging data or an empty/missing vehicle list yields zero parsed rows
and no `DealerOnParseError`; an HTTP error returned by the Cosmos SRP
vehicles API call (including a 404 response) does raise
`DealerOnParseError`. -/
theorem claim_C9_amended
    (api : CosmosRequest → Except String DealerOnPayload)
    (page : DealerOnPage) (t : TaggingData) (dealerIdRaw pageIdRaw : String)
    (di pgi : Int) (host : String)
    (hraw : page.rawFalsy = false)
    (ht : page.tagging = some t)
    (hd : t.dealerId = some dealerIdRaw) (hp : t.pageId = some pageIdRaw)
    (hdi : pyParseInt dealerIdRaw = some di)
    (hpi : pyParseInt pageIdRaw = some pgi)
    (hh : page.host = some host) :
    (t.statusCode = some 404 →
      dealerOnParseInventory api page = .ok []) ∧
    (∀ msg, t.statusCode ≠ some 404 →
      api (cosmosRequestFor t page.queryParams host di pgi) = .error msg →
      dealerOnParseInventory api page =
        .error s!"DealerOn API request failed: {msg}") ∧
    (∀ payload, t.statusCode ≠ some 404 →
      api (cosmosRequestFor t page.queryParams host di pgi) = .ok payload →
      (payload.displayCards = none ∨ payload.displayCards = some []) →
      dealerOnParseInventory api page = .ok []) := by
  refine ⟨?_, ?_, ?_⟩
  · intro h404
    simp [dealerOnParseInventory, hraw, ht, hd, hp, hdi, hpi, hh, h404]
  · intro msg hnot hapi
    simp [dealerOnParseInventory, hraw, ht, hd, hp, hdi, hpi, hh, hnot,
      hapi]
  · intro payload hnot hapi hcards
    rcases hcards with hc | hc <;>
      simp [dealerOnParseInventory, hraw, ht, hd, hp, hdi, hpi, hh, hnot,
        hapi, hc]

/-- C9 (witness): tagging `statusCode = 404` yields zero rows without an
error even though the API would fail if called. -/
theorem claim_C9_amended_witness :
    dealerOnParseInventory (fun _ => .error "boom")
        { tagging :=
            some { dealerId := some "3", pageId := some "4",
                   statusCode := some 404 },
          host := some "h.example" } = .ok [] :=
  (claim_C9_amended (fun _ => .error "boom")
    { tagging :=
        some { dealerId := some "3", pageId := some "4",
               statusCode := some 404 },
      host := some "h.example" }
    { dealerId := some "3", pageId := some "4", statusCode := some 404 }
    "3" "4" 3 4 "h.example" rfl rfl rfl rfl (by rfl) (by rfl) rfl).1 rfl

/-! ### C10 -/

/-- None of the four `_apply_line` blocks rewrites `vin`. -/
theorem heurApplyPrice_vin (config : HeurParserConfig) (line : String)
    (r : HeurRecord) : (heurApplyPrice config line r).vin = r.vin := by
  unfold heurApplyPrice
  dsimp only
  repeat' split <;> try rfl

/-- Stock block: `vin` untouched. -/
theorem heurApplyStock_vin (config : HeurParserConfig) (line : String)
    (r : HeurRecord) : (heurApplyStock config line r).vin = r.vin := by
  unfold heurApplyStock
  repeat' split <;> try rfl

/-- Status block: `vin` untouched. -/
theorem heurApplyStatus_vin (config : HeurParserConfig) (line : String)
    (r : HeurRecord) : (heurApplyStatus config line r).vin = r.vin := by
  unfold heurApplyStatus
  repeat' split <;> try rfl

/-- VDP block: `vin` untouched. -/
theorem heurApplyVdp_vin (config : HeurParserConfig) (line : String)
    (r : HeurRecord) : (heurApplyVdp config line r).vin = r.vin := by
  unfold heurApplyVdp
  repeat' split <;> try rfl

/-- Models `_apply_line` never rewrites the `vin` entry of a record. -/
theorem applyHeurLine_vin (config : HeurParserConfig) (r : HeurRecord)
    (line : String) : (applyHeurLine config r line).vin = r.vin := by
  unfold applyHeurLine
  split
  · rfl
  · rw [heurApplyVdp_vin, heurApplyStatus_vin, heurApplyStock_vin,
      heurApplyPrice_vin]

/-- Models `setdefault` preserves the invariant. -/
theorem setdefaultRecord_WF (records : List (String × HeurRecord))
    (vin : String) (h : recordsWF records) :
    recordsWF (setdefaultRecord records vin) := by
  obtain ⟨hnodup, hvals⟩ := h
  unfold setdefaultRecord
  split
  · exact ⟨hnodup, hvals⟩
  · next hany =>
    constructor
    · simp only [List.map_append, List.map_cons, List.map_nil]
      rw [List.nodup_append]
      refine ⟨hnodup, by simp, ?_⟩
      intro a ha hmem
      simp only [List.mem_singleton] at hmem
      subst hmem
      obtain ⟨p, hp, hpa⟩ := List.mem_map.1 ha
      exact hany (List.any_eq_true.2 ⟨p, hp, by simp [hpa]⟩)
    · intro p hp
      rcases List.mem_append.1 hp with hp | hp
      · exact hvals p hp
      · simp only [List.mem_singleton] at hp
        subst hp
        rfl

/-- In-place update under a key preserves the invariant whenever the
update preserves the `vin` field. -/
theorem updateRecord_WF (records : List (String × HeurRecord))
    (vin : String) (f : HeurRecord → HeurRecord)
    (hf : ∀ r, (f r).vin = r.vin) (h : recordsWF records) :
    recordsWF (updateRecord records vin f) := by
  obtain ⟨hnodup, hvals⟩ := h
  constructor
  · have hkeys : (updateRecord records vin f).map Prod.fst =
        records.map Prod.fst := by
      unfold updateRecord
      rw [List.map_map]
      apply List.map_congr_left
      intro p _
      by_cases hp : p.1 = vin <;> simp [hp]
    rw [hkeys]
    exact hnodup
  · intro p hp
    unfold updateRecord at hp
    simp only [List.mem_map] at hp
    obtain ⟨q, hq, rfl⟩ := hp
    by_cases hkey : q.1 = vin
    · simp only [if_pos hkey]
      rw [hf]
      exact hvals q hq
    · simp only [if_neg hkey]
      exact hvals q hq

/-- One iteration of the line loop preserves the invariant. -/
theorem heurLineStep_WF (config : HeurParserConfig)
    (st : List (String × HeurRecord) × Option String) (rawLine : List Char)
    (h : recordsWF st.1) : recordsWF (heurLineStep config st rawLine).1 := by
  unfold heurLineStep
  dsimp only
  split
  · exact h
  · split
    · dsimp only
      split
      · exact updateRecord_WF _ _ _ (fun r => applyHeurLine_vin _ _ _)
          (setdefaultRecord_WF _ _ h)
      · exact setdefaultRecord_WF _ _ h
    · split
      · exact h
      · exact updateRecord_WF _ _ _ (fun r => applyHeurLine_vin _ _ _) h

/-- The whole line loop preserves the invariant. -/
theorem heurFold_WF (config : HeurParserConfig) (lines : List (List Char))
    (st : List (String × HeurRecord) × Option String)
    (h : recordsWF st.1) :
    recordsWF (lines.foldl (heurLineStep config) st).1 := by
  induction lines generalizing st with
  | nil => exact h
  | cons line lines ih =>
    exact ih _ (heurLineStep_WF config st line h)

/-- C10: the generic heuristic inventory parser returns at most one row
per distinct VIN — for every configuration and input text,
`parse_inventory_with_config` never produces two rows with the same VIN
(rows are the values of a dict keyed by the uppercased VIN, and merging
context lines never rewrites a record's VIN). -/
theorem claim_C10_unique_vins (config : HeurParserConfig)
    (markdown_or_html : String) :
    (parse_inventory_with_config config markdown_or_html).Pairwise
      (fun a b => a.vin ≠ b.vin) := by
  unfold parse_inventory_with_config
  dsimp only
  split
  · exact List.Pairwise.nil
  · have hWF : recordsWF ((pySplitlines
        (stripTags markdown_or_html.data)).foldl
          (heurLineStep config) ([], none)).1 :=
      heurFold_WF config _ _ ⟨List.nodup_nil, by simp⟩
    obtain ⟨hnodup, hvals⟩ := hWF
    rw [List.pairwise_map]
    have hpair := List.pairwise_map.1 hnodup
    refine List.Pairwise.imp_of_mem ?_ hpair
    intro p q hp hq hne
    simpa [heurRecordToRow, hvals p hp, hvals q hq] using hne

/-! ### C5 -/

/-- Models `status = row.get("status") or "available"` never yields the empty
string. -/
theorem rowStatus_ne_empty (r : Row) : rowStatus r ≠ "" := by
  unfold rowStatus
  rcases h : r.status with _ | st
  · simp [strTruthy, h]
  · by_cases hst : st = "" <;> simp [strTruthy, h, hst]

/-- A found listing satisfies the lookup predicate. -/
theorem findListing_found {listings : List Listing} {d : Int} {v : String}
    {l : Listing} (h : findListing listings d v = some l) :
    l.dealer_id = d ∧ l.vin = v := by
  have := List.find?_some h
  simpa using this

/-- A found listing belongs to the list. -/
theorem findListing_mem {listings : List Listing} {d : Int} {v : String}
    {l : Listing} (h : findListing listings d v = some l) : l ∈ listings :=
  List.mem_of_find?_eq_some h

/-- When no listing matches, no element of the list carries the key. -/
theorem findListing_none_iff {listings : List Listing} {d : Int}
    {v : String} :
    findListing listings d v = none ↔
      ∀ l ∈ listings, ¬(l.dealer_id = d ∧ l.vin = v) := by
  unfold findListing
  rw [List.find?_eq_none]
  constructor
  · intro h l hl hcond
    exact absurd (by simpa using hcond) (by simpa using h l hl)
  · intro h l hl
    simpa using h l hl

/-- Updating the entries under one key leaves lookups of any other key
unchanged. -/
theorem findListing_map_other (listings : List Listing) (rd : Int)
    (rv : String) (updated : Listing)
    (hupd : updated.dealer_id = rd ∧ updated.vin = rv) (d : Int)
    (v : String) (hne : ¬(d = rd ∧ v = rv)) :
    findListing (listings.map fun x =>
        if x.dealer_id = rd ∧ x.vin = rv then updated else x) d v =
      findListing listings d v := by
  induction listings with
  | nil => rfl
  | cons x xs ih =>
    by_cases hx : x.dealer_id = rd ∧ x.vin = rv
    · have hxne : ¬(x.dealer_id = d ∧ x.vin = v) := by
        rintro ⟨h1, h2⟩
        exact hne ⟨by rw [← h1, hx.1], by rw [← h2, hx.2]⟩
      have hune : ¬(updated.dealer_id = d ∧ updated.vin = v) := by
        rintro ⟨h1, h2⟩
        exact hne ⟨by rw [← h1, hupd.1], by rw [← h2, hupd.2]⟩
      simp only [List.map_cons, if_pos hx]
      unfold findListing at ih ⊢
      rw [List.find?_cons_of_neg _ (by simpa using hune),
        List.find?_cons_of_neg _ (by simpa using hxne)]
      exact ih
    · simp only [List.map_cons, if_neg hx]
      unfold findListing at ih ⊢
      by_cases hxv : x.dealer_id = d ∧ x.vin = v
      · rw [List.find?_cons_of_pos _ (by simpa using hxv),
          List.find?_cons_of_pos _ (by simpa using hxv)]
      · rw [List.find?_cons_of_neg _ (by simpa using hxv),
          List.find?_cons_of_neg _ (by simpa using hxv)]
        exact ih

/-- After updating the entries under a key that is present, looking that
key up yields the updated listing. -/
theorem findListing_map_update (listings : List Listing) (rd : Int)
    (rv : String) (updated l0 : Listing)
    (hupd : updated.dealer_id = rd ∧ updated.vin = rv)
    (hfind : findListing listings rd rv = some l0) :
    findListing (listings.map fun x =>
        if x.dealer_id = rd ∧ x.vin = rv then updated else x) rd rv =
      some updated := by
  induction listings with
  | nil => simp [findListing] at hfind
  | cons x xs ih =>
    by_cases hx : x.dealer_id = rd ∧ x.vin = rv
    · simp only [List.map_cons, if_pos hx]
      unfold findListing
      rw [List.find?_cons_of_pos _ (by simpa using hupd)]
    · simp only [List.map_cons, if_neg hx]
      unfold findListing at hfind ⊢
      rw [List.find?_cons_of_neg _ (by simpa using hx)] at hfind
      rw [List.find?_cons_of_neg _ (by simpa using hx)]
      exact ih hfind

/-- With pairwise-distinct keys, the found listing is the only entry
carrying its key. -/
theorem findListing_unique (listings : List Listing) (rd : Int)
    (rv : String) (l : Listing) (hnodup : nodupKeys listings)
    (hfind : findListing listings rd rv = some l) :
    ∀ x ∈ listings, (x.dealer_id = rd ∧ x.vin = rv) → x = l := by
  induction listings with
  | nil => simp [findListing] at hfind
  | cons y ys ih =>
    have hnodup' : nodupKeys ys := (List.nodup_cons.1 hnodup).2
    intro x hx hxkey
    by_cases hy : y.dealer_id = rd ∧ y.vin = rv
    · have hl : l = y := by
        unfold findListing at hfind
        rw [List.find?_cons_of_pos _ (by simpa using hy)] at hfind
        exact (Option.some.injEq _ _ ▸ hfind).symm
      subst hl
      rcases List.mem_cons.1 hx with rfl | hx
      · rfl
      · exfalso
        have hxy : listingKey x = listingKey l := by
          simp [listingKey, hxkey.1, hxkey.2, hy.1, hy.2]
        exact (List.nodup_cons.1 hnodup).1
          (by
            rw [← hxy]
            exact List.mem_map_of_mem listingKey hx)
    · unfold findListing at hfind
      rw [List.find?_cons_of_neg _ (by simpa using hy)] at hfind
      rcases List.mem_cons.1 hx with rfl | hx
      · exact absurd hxkey hy
      · exact ih hnodup' hfind x hx hxkey

/-- Every `applyRow` appends exactly one observation. -/
theorem applyRow_observations_length (source : String) (now : Int)
    (s : IngestState) (row : Row) :
    (applyRow source now s row).observations.length =
      s.observations.length + 1 := by
  unfold applyRow
  dsimp only
  split <;> simp

/-- Models `updatedListingFor` keeps the listing's key. -/
theorem updatedListingFor_key (row : Row) (now : Int)
    (vm : Option Rat) (l : Listing) :
    (updatedListingFor row now vm l).dealer_id = l.dealer_id ∧
      (updatedListingFor row now vm l).vin = l.vin := by
  constructor <;> rfl

/-- Models `applyRow` leaves lookups of every other `(dealer_id, vin)` key
untouched. -/
theorem applyRow_find_other (source : String) (now : Int)
    (s : IngestState) (row : Row) (d : Int) (v : String)
    (hne : (d, v) ≠ rowKey row) :
    findListing (applyRow source now s row).listings d v =
      findListing s.listings d v := by
  have hne' : ¬(d = row.dealer_id ∧ v = pyUpper row.vin) := by
    rintro ⟨h1, h2⟩
    exact hne (by simp [rowKey, h1, h2])
  unfold applyRow
  dsimp only
  rcases hfind : findListing s.listings row.dealer_id (pyUpper row.vin)
      with _ | l
  · dsimp only
    unfold findListing
    rw [List.find?_append]
    have hnl : List.find? (fun x => decide (x.dealer_id = d ∧ x.vin = v))
        [newListingFor row now
          (mergeVehicle now (pyUpper row.vin) (row.vehicle.getD {})
            (s.vehicles.find? fun x => x.vin = pyUpper row.vin)).msrp] =
        none := by
      rw [List.find?_eq_none]
      intro a ha
      simp only [List.mem_singleton] at ha
      subst ha
      simp only [newListingFor, decide_eq_true_eq]
      rintro ⟨h1, h2⟩
      exact hne' ⟨h1.symm, h2.symm⟩
    rw [hnl]
    cases List.find? (fun x => decide (x.dealer_id = d ∧ x.vin = v))
        s.listings <;> rfl
  · dsimp only
    have hkey := findListing_found hfind
    exact findListing_map_other s.listings row.dealer_id (pyUpper row.vin)
      _ ⟨by rw [(updatedListingFor_key _ _ _ _).1, hkey.1],
         by rw [(updatedListingFor_key _ _ _ _).2, hkey.2]⟩ d v hne'

/-- When the row's key is new, `applyRow` appends it to the key
sequence. -/
theorem applyRow_keys_none (source : String) (now : Int) (s : IngestState)
    (row : Row)
    (hfind : findListing s.listings row.dealer_id (pyUpper row.vin) =
      none) :
    (applyRow source now s row).listings.map listingKey =
      s.listings.map listingKey ++ [rowKey row] := by
  unfold applyRow
  simp only [hfind]
  simp [newListingFor, listingKey, rowKey]

/-- When the row's key already exists, `applyRow` preserves the key
sequence. -/
theorem applyRow_keys_some (source : String) (now : Int) (s : IngestState)
    (row : Row) (l : Listing)
    (hfind : findListing s.listings row.dealer_id (pyUpper row.vin) =
      some l) :
    (applyRow source now s row).listings.map listingKey =
      s.listings.map listingKey := by
  unfold applyRow
  simp only [hfind]
  rw [List.map_map]
  apply List.map_congr_left
  intro x _
  by_cases hx : x.dealer_id = row.dealer_id ∧ x.vin = pyUpper row.vin
  · have hkey := findListing_found hfind
    simp only [Function.comp_apply, if_pos hx]
    simp [listingKey, (updatedListingFor_key _ _ _ _).1,
      (updatedListingFor_key _ _ _ _).2, hkey.1, hkey.2, hx.1, hx.2]
  · simp [Function.comp_apply, if_neg hx]

/-- Models `applyRow` preserves key distinctness. -/
theorem applyRow_nodupKeys (source : String) (now : Int) (s : IngestState)
    (row : Row) (h : nodupKeys s.listings) :
    nodupKeys (applyRow source now s row).listings := by
  rcases hfind : findListing s.listings row.dealer_id (pyUpper row.vin)
      with _ | l
  · unfold nodupKeys
    rw [applyRow_keys_none source now s row hfind]
    rw [List.nodup_append]
    refine ⟨h, by simp, ?_⟩
    intro k hk hk2
    simp only [List.mem_singleton] at hk2
    subst hk2
    obtain ⟨x, hx, hxk⟩ := List.mem_map.1 hk
    have := (findListing_none_iff.1 hfind) x hx
    apply this
    have : (x.dealer_id, x.vin) = (row.dealer_id, pyUpper row.vin) := hxk
    exact ⟨congrArg Prod.fst this, congrArg Prod.snd this⟩
  · unfold nodupKeys
    rw [applyRow_keys_some source now s row l hfind]
    exact h

/-- With an explicit `observed_at`, the row's effective seen-times do not
depend on the ambient clock. -/
theorem rowTimes_indep (now1 now2 : Int) (r : Row)
    (hobs : r.observed_at ≠ none) :
    rowFirstSeen now1 r = rowFirstSeen now2 r ∧
      rowLastSeen now1 r = rowLastSeen now2 r := by
  rcases h : r.observed_at with _ | t
  · exact absurd h hobs
  · simp [rowFirstSeen, rowLastSeen, rowObservedAt, h]

/-- Stability does not depend on the clock when `observed_at` is
explicit. -/
theorem stableRow_now (now1 now2 : Int) (r : Row) (l : Listing)
    (hobs : r.observed_at ≠ none) (h : StableRow now1 r l) :
    StableRow now2 r l := by
  obtain ⟨hft, hlt⟩ := rowTimes_indep now1 now2 r hobs
  unfold StableRow at h ⊢
  rw [← hft, ← hlt]
  exact h

/-- Stability reads only the five projected columns. -/
theorem stableRow_proj (now : Int) (r : Row) (l1 l2 : Listing)
    (hproj : listingProj l1 = listingProj l2) (h : StableRow now r l1) :
    StableRow now r l2 := by
  simp only [listingProj, Prod.mk.injEq] at hproj
  obtain ⟨h1, h2, h3, h4, h5⟩ := hproj
  unfold StableRow at h ⊢
  rw [← h1, ← h2, ← h3, ← h4, ← h5]
  exact h

/-- Re-updating a stable listing leaves all five projected columns
unchanged. -/
theorem updatedListingFor_proj (row : Row) (now : Int) (vm : Option Rat)
    (l : Listing) (hstab : StableRow now row l) :
    listingProj (updatedListingFor row now vm l) = listingProj l := by
  obtain ⟨hs, ha, ⟨f, hf, hfle⟩, ⟨g, hg, hgle⟩, hr⟩ := hstab
  unfold updatedListingFor listingProj
  dsimp only
  simp only [Prod.mk.injEq]
  refine ⟨?_, ?_, ?_, ?_, ?_⟩
  · rcases he : effectiveAdvPrice row with _ | a
    · rfl
    · exact (ha a he).symm
  · rw [if_pos (rowStatus_ne_empty row)]
    exact hs.symm
  · rw [hf]
    simp [min_eq_left hfle]
  · rw [hg]
    simp [max_eq_left hgle]
  · rcases hsr : row.source_rank with _ | nr
    · rfl
    · obtain ⟨p, hp, hple⟩ := hr nr hsr
      simp [hp, if_neg (not_lt.2 hple)]

/-- A stable listing triggers no price event. -/
theorem priceEventsFor_stable (row : Row) (now : Int) (l : Listing)
    (hstab : StableRow now row l) : priceEventsFor row now l = [] := by
  obtain ⟨-, ha, -, -, -⟩ := hstab
  unfold priceEventsFor
  rcases he : effectiveAdvPrice row with _ | a
  · rfl
  · rw [ha a he]
    simp

/-- A freshly created listing is stable for its row (given the row does
not supply `source_rank = 0`, which the `or 100` coalescing would
raise to 100). -/
theorem newListingFor_stable (row : Row) (now : Int) (vm : Option Rat)
    (hrank : row.source_rank ≠ some 0) :
    StableRow now row (newListingFor row now vm) := by
  unfold StableRow newListingFor
  dsimp only
  refine ⟨rfl, ?_, ⟨_, rfl, le_refl _⟩, ⟨_, rfl, le_refl _⟩, ?_⟩
  · intro a he
    exact he
  · intro nr hnr
    have hnz : nr ≠ 0 := by
      intro h0
      exact hrank (h0 ▸ hnr)
    rw [hnr]
    exact ⟨nr, by simp [sourceRankOr100, hnz], le_refl _⟩

/-- An updated listing is stable for its row. -/
theorem updatedListingFor_stable (row : Row) (now : Int) (vm : Option Rat)
    (l : Listing) : StableRow now row (updatedListingFor row now vm l) := by
  unfold StableRow updatedListingFor
  dsimp only
  refine ⟨?_, ?_, ?_, ?_, ?_⟩
  · rw [if_pos (rowStatus_ne_empty row)]
  · intro a he
    rw [he]
  · rcases hfs : l.first_seen_at with _ | f
    · exact ⟨_, rfl, le_refl _⟩
    · exact ⟨_, rfl, min_le_right _ _⟩
  · rcases hls : l.last_seen_at with _ | g
    · exact ⟨_, rfl, le_refl _⟩
    · exact ⟨_, rfl, le_max_right _ _⟩
  · intro nr hnr
    rw [hnr]
    rcases hlr : l.source_rank with _ | o
    · exact ⟨nr, rfl, le_refl _⟩
    · by_cases ho : nr < o
      · exact ⟨nr, by simp [if_pos ho], le_refl _⟩
      · exact ⟨o, by simp [if_neg ho], not_lt.1 ho⟩

/-- After `applyRow`, the row's own key is present and stable. -/
theorem applyRow_self_stable (source : String) (now : Int)
    (s : IngestState) (row : Row) (hrank : row.source_rank ≠ some 0) :
    ∃ l, findListing (applyRow source now s row).listings row.dealer_id
        (pyUpper row.vin) = some l ∧ StableRow now row l := by
  rcases hfind : findListing s.listings row.dealer_id (pyUpper row.vin)
      with _ | l0
  · have hfeq : findListing (applyRow source now s row).listings
        row.dealer_id (pyUpper row.vin) =
        some (newListingFor row now
          (mergeVehicle now (pyUpper row.vin) (row.vehicle.getD {})
            (s.vehicles.find? fun v => v.vin = pyUpper row.vin)).msrp) := by
      unfold applyRow
      simp only [hfind]
      unfold findListing
      rw [List.find?_append]
      unfold findListing at hfind
      rw [hfind]
      simp [newListingFor]
    exact ⟨_, hfeq, newListingFor_stable row now _ hrank⟩
  · have hkey := findListing_found hfind
    have hfeq : findListing (applyRow source now s row).listings
        row.dealer_id (pyUpper row.vin) =
        some (updatedListingFor row now
          (mergeVehicle now (pyUpper row.vin) (row.vehicle.getD {})
            (s.vehicles.find? fun v => v.vin = pyUpper row.vin)).msrp
          l0) := by
      unfold applyRow
      simp only [hfind]
      exact findListing_map_update s.listings row.dealer_id
        (pyUpper row.vin) _ l0
        ⟨by rw [(updatedListingFor_key _ _ _ _).1, hkey.1],
         by rw [(updatedListingFor_key _ _ _ _).2, hkey.2]⟩ hfind
    exact ⟨_, hfeq, updatedListingFor_stable row now _ l0⟩

/-- Applying a row to a state whose listing for that row is already
stable changes neither the projected columns nor the price events. -/
theorem applyRow_stable_noop (source : String) (now : Int)
    (s : IngestState) (row : Row) (l : Listing)
    (hnodup : nodupKeys s.listings)
    (hfind : findListing s.listings row.dealer_id (pyUpper row.vin) =
      some l)
    (hstab : StableRow now row l) :
    (applyRow source now s row).listings.map listingProj =
        s.listings.map listingProj ∧
      (applyRow source now s row).price_events = s.price_events := by
  constructor
  · unfold applyRow
    simp only [hfind]
    rw [List.map_map]
    apply List.map_congr_left
    intro x hx
    by_cases hxk : x.dealer_id = row.dealer_id ∧ x.vin = pyUpper row.vin
    · have hxl := findListing_unique s.listings _ _ l hnodup hfind x hx hxk
      subst hxl
      simp only [Function.comp_apply, if_pos hxk]
      exact updatedListingFor_proj row now _ x hstab
    · simp [Function.comp_apply, if_neg hxk]
  · unfold applyRow
    simp only [hfind]
    rw [priceEventsFor_stable row now l hstab]
    simp

/-- In a batch with no duplicate keys the row loop never hits the
invisible-pending case, so it leaves lookups of keys it never targets
unchanged. -/
theorem applyRows_find_other (source : String) (now : Int)
    (rows : List Row) (st : IngestState) (d : Int) (v : String)
    (h : ∀ r ∈ rows, (d, v) ≠ rowKey r) :
    findListing (rows.foldl (applyRow source now) st).listings d v =
      findListing st.listings d v := by
  induction rows generalizing st with
  | nil => rfl
  | cons r rows ih =>
    simp only [List.foldl_cons]
    rw [ih (applyRow source now st r)
      (fun r' hr' => h r' (List.mem_cons_of_mem _ hr'))]
    exact applyRow_find_other source now st r d v (h r (by simp))

/-- The row loop preserves key distinctness. -/
theorem applyRows_nodupKeys (source : String) (now : Int)
    (rows : List Row) (st : IngestState) (h : nodupKeys st.listings) :
    nodupKeys (rows.foldl (applyRow source now) st).listings := by
  induction rows generalizing st with
  | nil => exact h
  | cons r rows ih =>
    simp only [List.foldl_cons]
    exact ih (applyRow source now st r)
      (applyRow_nodupKeys source now st r h)

/-- After a batch with pairwise-distinct keys and no zero source ranks,
every row's listing is present and stable. -/
theorem applyRows_all_stable (source : String) (now : Int)
    (rows : List Row) (s : IngestState)
    (hpair : rows.Pairwise fun a b => rowKey a ≠ rowKey b)
    (hrank : ∀ r ∈ rows, r.source_rank ≠ some 0) :
    ∀ r ∈ rows, ∃ l,
      findListing (rows.foldl (applyRow source now) s).listings
          r.dealer_id (pyUpper r.vin) = some l ∧
        StableRow now r l := by
  induction rows generalizing s with
  | nil => simp
  | cons r0 rows ih =>
    intro r hr
    rcases List.mem_cons.1 hr with rfl | hr'
    · obtain ⟨l, hfeq, hl⟩ :=
        applyRow_self_stable source now s r (hrank r (by simp))
      refine ⟨l, ?_, hl⟩
      have h2 := applyRows_find_other source now rows
        (applyRow source now s r) r.dealer_id (pyUpper r.vin)
        (fun r' hr' =>
          (List.rel_of_pairwise_cons hpair hr' : rowKey r ≠ rowKey r'))
      simp only [List.foldl_cons]
      rw [h2]
      exact hfeq
    · simp only [List.foldl_cons]
      exact ih (applyRow source now s r0)
        (List.Pairwise.of_cons hpair)
        (fun r' h' => hrank r' (List.mem_cons_of_mem _ h')) r hr'

/-- Looking up a key in two lists with pointwise-equal keys and
projections yields projection-equal results. -/
theorem find_proj_transfer (l1 l2 : List Listing)
    (hkeys : l1.map listingKey = l2.map listingKey)
    (hproj : l1.map listingProj = l2.map listingProj) (d : Int)
    (v : String) (x : Listing) (hf : findListing l1 d v = some x) :
    ∃ y, findListing l2 d v = some y ∧ listingProj y = listingProj x := by
  induction l1 generalizing l2 with
  | nil => simp [findListing] at hf
  | cons a as ih =>
    cases l2 with
    | nil => simp at hkeys
    | cons b bs =>
      simp only [List.map_cons, List.cons.injEq] at hkeys hproj
      obtain ⟨hk1, hk2⟩ := hkeys
      obtain ⟨hp1, hp2⟩ := hproj
      by_cases hak : a.dealer_id = d ∧ a.vin = v
      · have hbk : b.dealer_id = d ∧ b.vin = v := by
          have h1 : (a.dealer_id, a.vin) = (b.dealer_id, b.vin) := hk1
          have e1 : a.dealer_id = b.dealer_id := congrArg Prod.fst h1
          have e2 : a.vin = b.vin := congrArg Prod.snd h1
          exact ⟨e1 ▸ hak.1, e2 ▸ hak.2⟩
      -- the heads match in both lists; results are the heads themselves
        unfold findListing at hf ⊢
        rw [List.find?_cons_of_pos _ (by simpa using hak)] at hf
        rw [List.find?_cons_of_pos _ (by simpa using hbk)]
        have hax : a = x := by
          injection hf
        exact ⟨b, rfl, by rw [← hp1, hax]⟩
      · have hbk : ¬(b.dealer_id = d ∧ b.vin = v) := by
          intro hb
          have h1 : (a.dealer_id, a.vin) = (b.dealer_id, b.vin) := hk1
          have e1 : a.dealer_id = b.dealer_id := congrArg Prod.fst h1
          have e2 : a.vin = b.vin := congrArg Prod.snd h1
          exact hak ⟨e1.symm ▸ hb.1, e2.symm ▸ hb.2⟩
        unfold findListing at hf ⊢
        rw [List.find?_cons_of_neg _ (by simpa using hak)] at hf
        rw [List.find?_cons_of_neg _ (by simpa using hbk)]
        exact ih bs hk2 hp2 hf

/-- Replaying a batch whose listings are all already stable changes no
projected column and emits no price event, while still appending one
observation per row. -/
theorem applyRows_replay (source : String) (now : Int) (rows : List Row)
    (st : IngestState) (hnodup : nodupKeys st.listings)
    (hstable : ∀ r ∈ rows, ∃ l,
      findListing st.listings r.dealer_id (pyUpper r.vin) = some l ∧
        StableRow now r l) :
    (rows.foldl (applyRow source now) st).listings.map
        listingKey = st.listings.map listingKey ∧
    (rows.foldl (applyRow source now) st).listings.map
        listingProj = st.listings.map listingProj ∧
    (rows.foldl (applyRow source now) st).price_events =
        st.price_events ∧
    (rows.foldl (applyRow source now) st).observations.length =
      st.observations.length + rows.length := by
  induction rows generalizing st with
  | nil => simp
  | cons r rows ih =>
    obtain ⟨l, hf, hl⟩ := hstable r (by simp)
    have hkeys1 := applyRow_keys_some source now st r l hf
    obtain ⟨hproj1, hpe1⟩ :=
      applyRow_stable_noop source now st r l hnodup hf hl
    have hnodup1 := applyRow_nodupKeys source now st r hnodup
    have hobs1 := applyRow_observations_length source now st r
    have hstable1 : ∀ r' ∈ rows, ∃ l',
        findListing (applyRow source now st r).listings r'.dealer_id
          (pyUpper r'.vin) = some l' ∧ StableRow now r' l' := by
      intro r' hr'
      obtain ⟨l0, hf0, hl0⟩ := hstable r' (List.mem_cons_of_mem _ hr')
      obtain ⟨y, hy, hyproj⟩ := find_proj_transfer st.listings
        (applyRow source now st r).listings hkeys1.symm hproj1.symm
        r'.dealer_id (pyUpper r'.vin) l0 hf0
      exact ⟨y, hy, stableRow_proj now r' l0 y hyproj.symm hl0⟩
    obtain ⟨ih1, ih2, ih3, ih4⟩ := ih (applyRow source now st r) hnodup1
      hstable1
    simp only [List.foldl_cons]
    refine ⟨by rw [ih1, hkeys1], by rw [ih2, hproj1],
      by rw [ih3, hpe1], ?_⟩
    rw [ih4, hobs1]
    simp only [List.length_cons]
    omega

/-- When a batch targets each `(dealer_id, vin)` at most once, the row
loop never trips over an invisible pending insert, so the guarded fold
succeeds and agrees with the plain per-row fold.  The invariant: every
listing key the loop state carries was either visible before the batch
(`preKeys`) or was created by a row already processed (`done`), and no
remaining row re-targets a `done` key. -/
theorem foldlM_applyRowInBatch_ok (source : String) (now : Int)
    (rows : List Row) (preKeys done : List (Int × String))
    (s : IngestState)
    (hpair : rows.Pairwise fun a b => rowKey a ≠ rowKey b)
    (hdone : ∀ r ∈ rows, rowKey r ∉ done)
    (hinv : ∀ l ∈ s.listings,
      listingKey l ∈ preKeys ∨ listingKey l ∈ done) :
    rows.foldlM (applyRowInBatch source now preKeys) s =
      .ok (rows.foldl (applyRow source now) s) := by
  induction rows generalizing s done with
  | nil => rfl
  | cons r rows ih =>
    have hstep : applyRowInBatch source now preKeys s r =
        .ok (applyRow source now s r) := by
      unfold applyRowInBatch
      by_cases hpre : (r.dealer_id, pyUpper r.vin) ∈ preKeys
      · rw [if_pos hpre]
      · rw [if_neg hpre]
        rcases hfind : findListing s.listings r.dealer_id
            (pyUpper r.vin) with _ | l
        · rfl
        · exfalso
          have hkey : listingKey l = rowKey r := by
            obtain ⟨h1, h2⟩ := findListing_found hfind
            simp [listingKey, rowKey, h1, h2]
          rcases hinv l (findListing_mem hfind) with hc | hc
          · rw [hkey] at hc
            exact hpre hc
          · exact hdone r (by simp) (hkey ▸ hc)
    have hinv1 : ∀ l ∈ (applyRow source now s r).listings,
        listingKey l ∈ preKeys ∨ listingKey l ∈ rowKey r :: done := by
      intro l hl
      have hmem : listingKey l ∈
          (applyRow source now s r).listings.map listingKey :=
        List.mem_map_of_mem listingKey hl
      rcases hfind : findListing s.listings r.dealer_id (pyUpper r.vin)
          with _ | l0
      · rw [applyRow_keys_none source now s r hfind] at hmem
        rcases List.mem_append.1 hmem with hm | hm
        · obtain ⟨x, hx, hxk⟩ := List.mem_map.1 hm
          rcases hinv x hx with hc | hc
          · exact Or.inl (hxk ▸ hc)
          · exact Or.inr (List.mem_cons_of_mem _ (hxk ▸ hc))
        · exact Or.inr (by simp only [List.mem_singleton] at hm; simp [hm])
      · rw [applyRow_keys_some source now s r l0 hfind] at hmem
        obtain ⟨x, hx, hxk⟩ := List.mem_map.1 hmem
        rcases hinv x hx with hc | hc
        · exact Or.inl (hxk ▸ hc)
        · exact Or.inr (List.mem_cons_of_mem _ (hxk ▸ hc))
    have hdone1 : ∀ r' ∈ rows, rowKey r' ∉ rowKey r :: done := by
      intro r' hr' hc
      rcases List.mem_cons.1 hc with hc | hc
      · exact List.rel_of_pairwise_cons hpair hr' hc.symm
      · exact hdone r' (List.mem_cons_of_mem _ hr') hc
    calc (r :: rows).foldlM (applyRowInBatch source now preKeys) s
        = rows.foldlM (applyRowInBatch source now preKeys)
            (applyRow source now s r) := by
          simp only [List.foldlM_cons, hstep]
          rfl
      _ = .ok (rows.foldl (applyRow source now)
            (applyRow source now s r)) :=
          ih (rowKey r :: done) (applyRow source now s r)
            (List.Pairwise.of_cons hpair) hdone1 hinv1
      _ = .ok ((r :: rows).foldl (applyRow source now) s) := by
          simp only [List.foldl_cons]

/-- For a batch with pairwise-distinct row keys, the guarded reconcile
succeeds and equals the plain per-row fold of `applyRow`. -/
theorem upsert_ok_of_pairwise (source : String) (now : Int)
    (rows : List Row) (s : IngestState)
    (hpair : rows.Pairwise fun a b => rowKey a ≠ rowKey b) :
    upsert_observations_and_listings rows source now s =
      .ok (rows.foldl (applyRow source now) s) := by
  unfold upsert_observations_and_listings
  exact foldlM_applyRowInBatch_ok source now rows
    (s.listings.map listingKey) [] s hpair (by simp)
    (fun l hl => Or.inl (List.mem_map_of_mem listingKey hl))

/-- C5 (counterexample): replay is not idempotent for every row batch.
A single-row batch that supplies `source_rank = 0` creates the listing
with rank 100 (Python's `source_rank_value or 100` coalescing treats 0
as absent), and replaying the identical batch then lowers the committed
rank to 0 through the `source_rank_value < listing.source_rank` update
— so the listing's `source_rank` does not keep its value from the first
application, contrary to the claim. -/
theorem claim_C5_counterexample :
    (let row : Row :=
       { dealer_id := 1, vin := "JTDKN3DU0A0000001",
         observed_at := some 10, advertised_price := some 100,
         source_rank := some 0 }
     ∃ s1 s2,
       upsert_observations_and_listings [row] "upload" 0 {} = .ok s1 ∧
       upsert_observations_and_listings [row] "upload" 0 s1 = .ok s2 ∧
       s1.listings.map (fun l => l.source_rank) = [some 100] ∧
       s2.listings.map (fun l => l.source_rank) = [some 0]) := by
  exact ⟨_, _, rfl, rfl, rfl, rfl⟩

/-- C5 (amended): reconcile is idempotent under exact replay for every
batch that targets each `(dealer_id, vin)` at most once, carries an
explicit `observed_at` on every row, and supplies no `source_rank` of 0
(which the `or 100` coalescing turns into 100 on creation and back into
0 on replay): both applications commit without an integrity error, and
applying `upsert_observations_and_listings` to the same batch a second
time — at any later clock — produces exactly one additional Observation
per row, exactly zero PriceEvents, and leaves each affected listing's
advertised_price, status, first_seen_at, last_seen_at and source_rank
equal to their values after the first application (the prior listings
table is assumed key-unique, as `(dealer_id, vin)` is its primary key;
batches that target a key twice instead insert a duplicate primary key
invisible to the autoflush-disabled session and abort at commit). -/
theorem claim_C5_replay_idempotent (source : String) (now1 now2 : Int)
    (rows : List Row) (s : IngestState) (hnodup : nodupKeys s.listings)
    (hpair : rows.Pairwise fun a b => rowKey a ≠ rowKey b)
    (hobs : ∀ r ∈ rows, r.observed_at ≠ none)
    (hrank : ∀ r ∈ rows, r.source_rank ≠ some 0) :
    ∃ s1 s2,
      upsert_observations_and_listings rows source now1 s = .ok s1 ∧
      upsert_observations_and_listings rows source now2 s1 = .ok s2 ∧
      s2.observations.length = s1.observations.length + rows.length ∧
      s2.price_events = s1.price_events ∧
      s2.listings.map listingProj = s1.listings.map listingProj := by
  have hok1 := upsert_ok_of_pairwise source now1 rows s hpair
  have hnodup1 := applyRows_nodupKeys source now1 rows s hnodup
  have hstable1 := applyRows_all_stable source now1 rows s hpair hrank
  have hstable2 : ∀ r ∈ rows, ∃ l,
      findListing ((rows.foldl (applyRow source now1) s).listings)
        r.dealer_id (pyUpper r.vin) = some l ∧ StableRow now2 r l := by
    intro r hr
    obtain ⟨l, hf, hl⟩ := hstable1 r hr
    exact ⟨l, hf, stableRow_now now1 now2 r l (hobs r hr) hl⟩
  obtain ⟨-, h2, h3, h4⟩ := applyRows_replay source now2 rows
    (rows.foldl (applyRow source now1) s) hnodup1 hstable2
  exact ⟨rows.foldl (applyRow source now1) s,
    rows.foldl (applyRow source now2)
      (rows.foldl (applyRow source now1) s),
    hok1, upsert_ok_of_pairwise source now2 rows _ hpair, h4, h3, h2⟩

/-- C5 (witness): replaying a well-formed one-row batch at a later clock
succeeds both times, adds one observation, no price events, and leaves
the listing columns unchanged. -/
theorem claim_C5_replay_idempotent_witness :
    ∃ s1 s2,
      upsert_observations_and_listings
        [{ dealer_id := 1, vin := "JTENU5JR4R5299999",
           observed_at := some 100, advertised_price := some 47500,
           status := some "available", source_rank := some 50 }] "u" 3
        {} = .ok s1 ∧
      upsert_observations_and_listings
        [{ dealer_id := 1, vin := "JTENU5JR4R5299999",
           observed_at := some 100, advertised_price := some 47500,
           status := some "available", source_rank := some 50 }] "u" 7
        s1 = .ok s2 ∧
      s2.observations.length = s1.observations.length + 1 ∧
      s2.price_events = s1.price_events ∧
      s2.listings.map listingProj = s1.listings.map listingProj := by
  exact claim_C5_replay_idempotent "u" 3 7
    [{ dealer_id := 1, vin := "JTENU5JR4R5299999",
       observed_at := some 100, advertised_price := some 47500,
       status := some "available", source_rank := some 50 }] {}
    (by simp [nodupKeys])
    (by simp)
    (by intro r hr; simp at hr; subst hr; simp)
    (by intro r hr; simp at hr; subst hr; simp)

end VehInv
